import Mathlib

/-!
Verification development for the broker_bot flow engine (src/main.go).

Strings are modelled as lists of Unicode scalar values (`List Char`), so a
character corresponds to a Go rune: `runeLen` is `List.length`, and UTF-8
byte counts are computed separately by `utf8ByteLen`.  Go maps are modelled
as association lists paired with a first-match lookup; iterating a Go map
(`for k, v := range m`) enumerates entries in an unspecified order, which the
embedding makes explicit by working over an enumeration list and, where a
claim depends on order-independence, quantifying over permutations.
-/

set_option maxHeartbeats 1000000

abbrev Str := List Char

/-- The characters Go's `unicode.IsSpace` accepts (White_Space property). -/
def goIsSpace (c : Char) : Bool :=
  c.val = 0x9 ∨ c.val = 0xA ∨ c.val = 0xB ∨ c.val = 0xC ∨ c.val = 0xD ∨
  c.val = 0x20 ∨ c.val = 0x85 ∨ c.val = 0xA0 ∨ c.val = 0x1680 ∨
  (0x2000 ≤ c.val ∧ c.val ≤ 0x200A) ∨ c.val = 0x2028 ∨ c.val = 0x2029 ∨
  c.val = 0x202F ∨ c.val = 0x205F ∨ c.val = 0x3000

/-- Go `strings.TrimSpace`. -/
def trimSpace (s : Str) : Str :=
  ((s.dropWhile goIsSpace).reverse.dropWhile goIsSpace).reverse

/-- Go `strings.TrimLeft(s, "/")`. -/
def trimLeftSlash (s : Str) : Str := s.dropWhile (fun c => c = '/')

/-- Go `strings.TrimRight(s, "/")`. -/
def trimRightSlash (s : Str) : Str :=
  (s.reverse.dropWhile (fun c => c = '/')).reverse

/-- ASCII lower-casing of one character.  Go's `strings.EqualFold` uses
Unicode simple case folding; on comparisons against the all-ASCII keyword
`"menu"` the two notions agree, because no character outside ASCII folds to
`m`, `e`, `n` or `u`. -/
def foldChar (c : Char) : Char :=
  if 'A' ≤ c ∧ c ≤ 'Z' then Char.ofNat (c.toNat + 32) else c

/-- Go `strings.EqualFold`, restricted to ASCII folding (see `foldChar`). -/
def equalFold (a b : Str) : Bool := a.map foldChar = b.map foldChar

/-- Go `utf8.RuneCountInString` (src/main.go `runeLen`): the number of
Unicode code points, which for `List Char` is the length. -/
def runeLen (s : Str) : Nat := s.length

/-- Number of bytes in the UTF-8 encoding of one character. -/
def utf8Size (c : Char) : Nat :=
  if c.val < 0x80 then 1 else if c.val < 0x800 then 2
  else if c.val < 0x10000 then 3 else 4

/-- Number of bytes in the UTF-8 encoding of a string (Go `len(s)`). -/
def utf8ByteLen (s : Str) : Nat := (s.map utf8Size).sum

/-- Scanning loop of `replaceAll`: walks the string left to right; while the
skip counter is positive the current character belongs to an already-replaced
occurrence and is dropped; at skip `0`, a match of `pat` emits `rep` and
schedules the remaining `pat.length - 1` matched characters for skipping. -/
def replaceAllGo (pat rep : Str) : Str → Nat → Str
  | [], _ => []
  | _ :: rest, n + 1 => replaceAllGo pat rep rest n
  | c :: rest, 0 =>
    if pat.isPrefixOf (c :: rest) then
      rep ++ replaceAllGo pat rep rest (pat.length - 1)
    else
      c :: replaceAllGo pat rep rest 0

/-- Go `strings.ReplaceAll(s, old, new)` for a non-empty `old`: replaces the
leftmost non-overlapping occurrences of `pat` in `s` by `rep`.  (Go treats an
empty `old` specially; the flow engine only ever calls this with the pattern
`"{{" + key + "}}"`, which is never empty, and for an empty `pat` this
embedding returns `s` unchanged.) -/
def replaceAll (pat rep s : Str) : Str :=
  if pat = [] then s else replaceAllGo pat rep s 0

/-- src/main.go `renderVars`: substitutes `{{key}}` placeholders by folding
`strings.ReplaceAll` over an enumeration of the variable map. -/
def renderVars (s : Str) (vars : List (Str × Str)) : Str :=
  if s = [] ∨ vars = [] then s
  else vars.foldl
    (fun acc kv => replaceAll ("\x7b\x7b".data ++ kv.1 ++ "\x7d\x7d".data) kv.2 acc) s

/-! ### Path cleaning and URL escaping (Go `path.Clean`, `url.PathEscape`) -/

/-- Splits a string at every `'/'` (Go `strings.Split(s, "/")`). -/
def splitSeg : Str → List Str
  | [] => [[]]
  | c :: rest =>
    if c = '/' then [] :: splitSeg rest
    else match splitSeg rest with
      | [] => [[c]]
      | s :: ss => (c :: s) :: ss

/-- Joins segments with `'/'` (Go `strings.Join(parts, "/")`). -/
def joinSlash : List Str → Str
  | [] => []
  | [s] => s
  | s :: ss => s ++ '/' :: joinSlash ss

/-- One step of lexical path cleaning over a segment stack: empty and `"."`
segments are dropped; a `".."` pops the previous segment unless the stack is
empty or already ends in `".."` (leading parent segments are kept, as with Go
`path.Clean` on a relative path); any other segment is pushed. -/
def cleanStep (acc : List Str) (seg : Str) : List Str :=
  if seg = [] ∨ seg = ['.'] then acc
  else if seg = ['.', '.'] then
    match acc.getLast? with
    | none => [seg]
    | some last => if last = ['.', '.'] then acc ++ [seg] else acc.dropLast
  else acc ++ [seg]

def cleanSegs (segs : List Str) : List Str := segs.foldl cleanStep []

/-- Go `strings.Contains(s, pat)`: whether `pat` occurs as a contiguous
substring of `s`. -/
def containsSub (pat : Str) : Str → Bool
  | [] => pat.isPrefixOf []
  | c :: rest => pat.isPrefixOf (c :: rest) || containsSub pat rest

/-- Go `path.Clean` for relative (slash-separated, unrooted) paths, computed
segment-wise; `buildPublicAssetURL` only ever applies it after stripping
leading slashes. -/
def pathClean (s : Str) : Str :=
  match cleanSegs (splitSeg s) with
  | [] => ['.']
  | segs => joinSlash segs

/-- UTF-8 encoding of one character as a list of byte values. -/
def utf8Bytes (c : Char) : List Nat :=
  let v := c.toNat
  if v < 0x80 then [v]
  else if v < 0x800 then
    [0xC0 ||| (v >>> 6), 0x80 ||| (v &&& 0x3F)]
  else if v < 0x10000 then
    [0xE0 ||| (v >>> 12), 0x80 ||| ((v >>> 6) &&& 0x3F), 0x80 ||| (v &&& 0x3F)]
  else
    [0xF0 ||| (v >>> 18), 0x80 ||| ((v >>> 12) &&& 0x3F),
     0x80 ||| ((v >>> 6) &&& 0x3F), 0x80 ||| (v &&& 0x3F)]

/-- Go `net/url.shouldEscape` for the path-segment encoding mode: keeps
alphanumerics, the unreserved marks `-_.~`, and the reserved characters
`$&+:=@`; everything else (including `/;,?`) is percent-escaped. -/
def shouldEscapeSeg (b : Nat) : Bool :=
  if (0x61 ≤ b ∧ b ≤ 0x7A) ∨ (0x41 ≤ b ∧ b ≤ 0x5A) ∨ (0x30 ≤ b ∧ b ≤ 0x39) then
    false
  else if b = '-'.toNat ∨ b = '_'.toNat ∨ b = '.'.toNat ∨ b = '~'.toNat then
    false
  else if b = '$'.toNat ∨ b = '&'.toNat ∨ b = '+'.toNat ∨ b = ':'.toNat ∨
      b = '='.toNat ∨ b = '@'.toNat then
    false
  else true

def hexDigitUpper (n : Nat) : Char :=
  if n < 10 then Char.ofNat ('0'.toNat + n) else Char.ofNat ('A'.toNat + n - 10)

def escapeByte (b : Nat) : Str := ['%', hexDigitUpper (b / 16), hexDigitUpper (b % 16)]

/-- Go `url.PathEscape`: percent-escapes the UTF-8 bytes of a path segment. -/
def pathEscape (s : Str) : Str :=
  ((s.map utf8Bytes).flatten.map
    (fun b => if shouldEscapeSeg b then escapeByte b else [Char.ofNat b])).flatten

/-- src/main.go `buildPublicAssetURL`: builds the public URL of a tenant
asset.  The `PUBLIC_BASE_URL` environment value is passed as `base`. -/
def buildPublicAssetURL (base tenant assetPath : Str) : Except Str Str :=
  let b := trimRightSlash base
  if b = [] then .error "PUBLIC_BASE_URL no está configurada".data
  else
    let clean := pathClean (trimLeftSlash assetPath)
    if clean = ['.'] ∨ "..".data.isPrefixOf clean ∨ containsSub "../".data clean then
      .error ("assetPath inválido: ".data ++ assetPath)
    else
      .ok (b ++ "/tenants/".data ++ pathEscape tenant ++ "/assets/".data ++
        joinSlash ((splitSeg clean).map pathEscape))

/-! ### Flow configuration model (src/main.go types) -/

/-- Go map indexing `m[k]` over an association-list model of the map. -/
def lookupAssoc {α : Type} : List (Str × α) → Str → Option α
  | [], _ => none
  | (k1, v) :: rest, k => if k1 = k then some v else lookupAssoc rest k

structure FlowRow where
  id : Str
  title : Str
  description : Str
deriving DecidableEq

structure FlowSection where
  title : Str
  rows : List FlowRow
deriving DecidableEq

structure FlowList where
  header : Str
  buttonText : Str
  footer : Str
  sections : List FlowSection
deriving DecidableEq

structure FlowButton where
  id : Str
  title : Str
deriving DecidableEq

structure FlowButtons where
  header : Str
  footer : Str
  buttons : List FlowButton
deriving DecidableEq

structure FlowHeaderMedia where
  type : Str
  path : Str
  url : Str
deriving DecidableEq

structure FlowState where
  type : Str
  body : Str
  action : Str
  headerMedia : Option FlowHeaderMedia
  list : Option FlowList
  buttons : Option FlowButtons
  onTextNext : Str
  onSelectNext : List (Str × Str)
deriving DecidableEq

structure FlowConfig where
  version : Str
  states : List (Str × FlowState)
deriving DecidableEq

/-- A plain `FlowState` with everything optional absent, used to build
concrete flows compactly. -/
def emptyState : FlowState :=
  { type := [], body := [], action := [], headerMedia := none,
    list := none, buttons := none, onTextNext := [], onSelectNext := [] }

/-! ### Flow validation (src/main.go `validateFlowConfig`) -/

/-- One validation defect.  The Go code formats each defect with
`fmt.Sprintf` into a human-readable string that names the state and the
offending field; this embedding keeps the state name, the field message and
the offending value as separate components of that string. -/
structure VErr where
  state : Str
  field : Str
  detail : Str
deriving DecidableEq

/-- Go `strings.ToLower`, restricted to ASCII (see `foldChar`). -/
def toLowerStr (s : Str) : Str := s.map foldChar

/-- Defects of the `header_media` block of one state. -/
def headerMediaErrors (stateName : Str) (st : FlowState) : List VErr :=
  match st.headerMedia with
  | none => []
  | some hm =>
    let mt := toLowerStr (trimSpace hm.type)
    (if mt = [] then [⟨stateName, "header_media.type vacío".data, []⟩]
     else if mt ≠ "image".data then
       [⟨stateName, "header_media.type no soportado".data, hm.type⟩]
     else []) ++
    (if trimSpace hm.url = [] ∧ trimSpace hm.path = [] then
       [⟨stateName, "header_media requiere url o path".data, []⟩]
     else [])

/-- Defects of the kind-specific UI payload of one state (the
`interactive_list` and `interactive_buttons` blocks of the Go loop; `text`
and unknown kinds produce none). -/
def typeErrors (stateName : Str) (st : FlowState) : List VErr :=
  if st.type = "interactive_list".data then
    match st.list with
    | none => [⟨stateName, "es interactive_list pero list es nil".data, []⟩]
    | some l =>
      (if runeLen l.header > 60 then [⟨stateName, "header > 60".data, l.header⟩] else []) ++
      (if runeLen l.footer > 60 then [⟨stateName, "footer > 60".data, l.footer⟩] else []) ++
      (if runeLen l.buttonText > 20 then
        [⟨stateName, "button_text > 20".data, l.buttonText⟩] else []) ++
      (l.sections.map (fun sec =>
        (if runeLen sec.title > 24 then
          [⟨stateName, "section title > 24".data, sec.title⟩] else []) ++
        (sec.rows.map (fun row =>
          (if trimSpace row.id = [] then
            [⟨stateName, "row id vacío".data, row.title⟩] else []) ++
          (if runeLen row.title > 24 then
            [⟨stateName, "row title > 24".data, row.title⟩] else []) ++
          (if runeLen row.description > 72 then
            [⟨stateName, "row desc > 72".data, row.description⟩] else []))).flatten)).flatten
  else if st.type = "interactive_buttons".data then
    match st.buttons with
    | none => [⟨stateName, "es interactive_buttons pero buttons es nil".data, []⟩]
    | some b =>
      (if runeLen b.header > 60 then
        [⟨stateName, "buttons.header > 60".data, b.header⟩] else []) ++
      (if runeLen b.footer > 60 then
        [⟨stateName, "buttons.footer > 60".data, b.footer⟩] else []) ++
      (if b.buttons.length = 0 then
        [⟨stateName, "no tiene buttons (debe tener 1 a 3)".data, []⟩]
       else
        (if b.buttons.length > 3 then
          [⟨stateName, "tiene botones (>3)".data, []⟩] else []) ++
        (b.buttons.map (fun btn =>
          (if trimSpace btn.id = [] then
            [⟨stateName, "button id vacío".data, btn.title⟩] else []) ++
          (if runeLen btn.title > 20 then
            [⟨stateName, "button title > 20".data, btn.title⟩] else []))).flatten)
  else []

/-- All defects of one state, in source order. -/
def stateErrors (stateName : Str) (st : FlowState) : List VErr :=
  headerMediaErrors stateName st ++ typeErrors stateName st

/-- src/main.go `validateFlowConfig`: collects the defects of every state.
The Go function formats the non-empty list into a single error naming the
tenant; an empty list means the flow is accepted. -/
def validateFlowConfig (cfg : FlowConfig) : List VErr :=
  (cfg.states.map (fun p => stateErrors p.1 p.2)).flatten

inductive LoadError where
  | readError (msg : Str)
  | parseError (msg : Str)
  | noStates
  | invalidFlow (errs : List VErr)
deriving DecidableEq

/-- src/main.go `loadFlowConfig` after the file read and JSON unmarshal,
whose outcome (both are external I/O) is passed in as `doc`: an empty state
map or any validation defect rejects the flow. -/
def loadFlowConfig (doc : Except LoadError FlowConfig) : Except LoadError FlowConfig :=
  match doc with
  | .error e => .error e
  | .ok cfg =>
    if cfg.states = [] then .error .noStates
    else match validateFlowConfig cfg with
      | [] => .ok cfg
      | errs => .error (.invalidFlow errs)

/-! ### Inbound messages and the transition resolver -/

structure ButtonReply where
  id : Str
  title : Str
deriving DecidableEq

structure ListReply where
  id : Str
  title : Str
  description : Str
deriving DecidableEq

structure InteractivePayload where
  type : Str
  buttonReply : Option ButtonReply
  listReply : Option ListReply
deriving DecidableEq

structure TextPayload where
  body : Str
deriving DecidableEq

/-- src/main.go `IncomingMessage` (`sender` models the `From` field, which is
a reserved word in Lean). -/
structure IncomingMessage where
  sender : Str
  id : Str
  timestamp : Str
  type : Str
  text : Option TextPayload
  interactive : Option InteractivePayload
deriving DecidableEq

/-- src/main.go `processMessage`, given the tenant's loaded flow.  The Go
method first consults the config cache and its only error return is a
config-load failure on a cache miss, before any resolution happens; with the
flow in hand (as modelled here) every branch returns a state name and a
`handled` flag and no error. -/
def processMessage (cfg : FlowConfig) (state : Str) (msg : IncomingMessage) :
    Str × Bool :=
  match lookupAssoc cfg.states state with
  | none => ("MENU".data, false)
  | some st =>
    if msg.type = "text".data then
      match msg.text with
      | none => ("MENU".data, false)
      | some t =>
        let txt := trimSpace t.body
        if equalFold txt "menu".data then ("MENU".data, true)
        else if st.onTextNext ≠ [] then (st.onTextNext, true)
        else ("MENU".data, false)
    else if msg.type = "interactive".data then
      match msg.interactive with
      | none => ("MENU".data, false)
      | some i =>
        if i.type = "list_reply".data then
          match i.listReply with
          | none => ("MENU".data, false)
          | some lr =>
            match lookupAssoc st.onSelectNext lr.id with
            | some ns => if ns ≠ [] then (ns, true) else ("MENU".data, false)
            | none => ("MENU".data, false)
        else if i.type = "button_reply".data then
          match i.buttonReply with
          | none => ("MENU".data, false)
          | some br =>
            match lookupAssoc st.onSelectNext br.id with
            | some ns => if ns ≠ [] then (ns, true) else ("MENU".data, false)
            | none => ("MENU".data, false)
        else ("MENU".data, false)
    else ("MENU".data, false)

/-! ### Renderer (src/main.go `Renderer.RenderAndSend`) -/

structure ListMessage where
  headerText : Str
  headerImageURL : Str
  body : Str
  footer : Str
  buttonText : Str
  sections : List FlowSection
deriving DecidableEq

structure ButtonsMessage where
  headerText : Str
  headerImageURL : Str
  body : Str
  footer : Str
  buttons : List FlowButton
deriving DecidableEq

/-- The channel-agnostic outgoing message the renderer hands to the
WhatsApp client (`sendText` / `sendList` / `sendButtons` arguments). -/
inductive OutgoingMessage where
  | text (body : Str)
  | list (m : ListMessage)
  | buttons (m : ButtonsMessage)
deriving DecidableEq

/-- Header-image resolution for interactive states: a trimmed remote URL
wins; otherwise a non-empty local path is rendered and turned into a public
asset URL (which can fail); otherwise there is no header image. -/
def resolveHeaderImage (base tenant : Str) (hm : Option FlowHeaderMedia)
    (vars : List (Str × Str)) : Except Str Str :=
  match hm with
  | none => .ok []
  | some m =>
    if equalFold m.type "image".data then
      if trimSpace m.url ≠ [] then .ok (trimSpace m.url)
      else if trimSpace m.path ≠ [] then
        buildPublicAssetURL base tenant (renderVars m.path vars)
      else .ok []
    else .ok []

/-- Body of an interactive state: the trimmed body, or the default prompt
when it is empty. -/
def effectiveBody (st : FlowState) : Str :=
  let b := trimSpace st.body
  if b = [] then "Elegí una opción:".data else b

/-- src/main.go `Renderer.RenderAndSend`, up to the outbound network call:
resolves a state of the tenant's loaded flow into the message payload that
is handed to the WhatsApp client, or an error.  The cache-miss reload and
the HTTP send are external I/O and are out of this pure core. -/
def RenderAndSend (base tenant : Str) (cfg : FlowConfig) (stateName : Str)
    (vars : List (Str × Str)) : Except Str OutgoingMessage :=
  match lookupAssoc cfg.states stateName with
  | none => .error ("estado no existe: ".data ++ stateName)
  | some st =>
    if st.type = "text".data then
      .ok (.text (renderVars st.body vars))
    else if st.type = "interactive_list".data then
      match st.list with
      | none =>
        .error ("estado ".data ++ stateName ++ " es interactive_list pero list es nil".data)
      | some l =>
        let bodyText := renderVars (effectiveBody st) vars
        let headerText := renderVars l.header vars
        let footer := renderVars l.footer vars
        let button := renderVars l.buttonText vars
        match resolveHeaderImage base tenant st.headerMedia vars with
        | .error e => .error e
        | .ok himg =>
          let sections := l.sections.map (fun s =>
            { title := renderVars s.title vars,
              rows := s.rows.map (fun row =>
                { id := row.id,
                  title := renderVars row.title vars,
                  description := renderVars row.description vars }) })
          .ok (.list
            { headerText := headerText, headerImageURL := himg, body := bodyText,
              footer := footer, buttonText := button, sections := sections })
    else if st.type = "interactive_buttons".data then
      match st.buttons with
      | none =>
        .error ("estado ".data ++ stateName ++ " es interactive_buttons pero buttons es nil".data)
      | some b =>
        let bodyText := renderVars (effectiveBody st) vars
        let headerText := renderVars b.header vars
        let footer := renderVars b.footer vars
        match resolveHeaderImage base tenant st.headerMedia vars with
        | .error e => .error e
        | .ok himg =>
          let btns := b.buttons.map (fun btn =>
            { id := btn.id, title := renderVars btn.title vars : FlowButton })
          .ok (.buttons
            { headerText := headerText, headerImageURL := himg, body := bodyText,
              footer := footer, buttons := btns })
    else
      .error ("tipo de estado no soportado: ".data ++ st.type)

/-! ### Dispatcher (src/main.go `handleMessage`, per-message core) -/

structure UserSession where
  state : Str
  updatedAt : Nat
  data : List (Str × Str)
deriving DecidableEq

/-- Go map assignment `m[k] = v` over the association-list model: replaces
the binding of `k` when present, otherwise appends it. -/
def insertVar (m : List (Str × Str)) (k v : Str) : List (Str × Str) :=
  match m with
  | [] => [(k, v)]
  | (k1, v1) :: rest => if k1 = k then (k, v) :: rest else (k1, v1) :: insertVar rest k v

/-- src/main.go `ActionFunc`: `(tenant, userID, session) → (variables, error)`.
The handlers perform external I/O, so the dispatcher model is parameterized
by the registry. -/
abbrev ActionFn : Type := Str → Str → UserSession → Except Str (List (Str × Str))

instance {α β : Type} [DecidableEq α] [DecidableEq β] : DecidableEq (Except α β) :=
  fun x y =>
    match x, y with
    | .error a, .error b =>
      if h : a = b then .isTrue (by rw [h])
      else .isFalse (fun hc => h (Except.error.inj hc))
    | .error _, .ok _ => .isFalse (fun hc => Except.noConfusion hc)
    | .ok _, .error _ => .isFalse (fun hc => Except.noConfusion hc)
    | .ok a, .ok b =>
      if h : a = b then .isTrue (by rw [h])
      else .isFalse (fun hc => h (Except.ok.inj hc))

/-- Fresh session created on first contact. -/
def initialSession (now : Nat) : UserSession :=
  { state := "MENU".data, updatedAt := now, data := [] }

/-- Session to use for the event: the stored one, or a fresh `MENU` session
when there is none or it has no state. -/
def sessionBase (sessIn : Option UserSession) (now : Nat) : UserSession :=
  match sessIn with
  | none => initialSession now
  | some s => if s.state = [] then initialSession now else s

/-- Contact display name: trimmed profile name, defaulting to `"ahí"`. -/
def displayName (contactName : Option Str) : Str :=
  let n := trimSpace (contactName.getD [])
  if n = [] then "ahí".data else n

/-- Selected option id of an interactive reply (list reply wins over button
reply), empty for any other message. -/
def selectedIdOf (msg : IncomingMessage) : Str :=
  if msg.type = "interactive".data then
    match msg.interactive with
    | none => []
    | some i =>
      match i.listReply with
      | some lr => lr.id
      | none =>
        match i.buttonReply with
        | some br => br.id
        | none => []
  else []

/-- Session after the capture block: a non-empty selected option id is
stored under `last_selected_id` before the transition is resolved. -/
def sessionAfterCapture (sess : UserSession) (msg : IncomingMessage) : UserSession :=
  let sid := selectedIdOf msg
  if sid ≠ [] then { sess with data := insertVar sess.data "last_selected_id".data sid }
  else sess

/-- Render variables before any action runs: `name`, then the session's data
merged over it (in the enumeration order of the data map). -/
def varsBase (contactName : Option Str) (sess : UserSession) : List (Str × Str) :=
  sess.data.foldl (fun acc kv => insertVar acc kv.1 kv.2)
    [("name".data, displayName contactName)]

/-- Next state after the resolver and the dispatcher's `!handled` guard
(which re-forces the default state; the resolver already returns it for
every unhandled event). -/
def resolvedNext (cfg : FlowConfig) (sess : UserSession) (msg : IncomingMessage) : Str :=
  let step := processMessage cfg sess.state msg
  if step.2 then step.1 else "MENU".data

/-- Observable outcome of handling one inbound message: the session the
dispatcher persists, the render outcome handed to the channel client, and —
for the action-dispatch contract — which action (if any) was invoked and
with which session argument. -/
structure StepResult where
  session : UserSession
  rendered : Except Str OutgoingMessage
  actionCalled : Option (Str × UserSession)
deriving DecidableEq

/-- The action block of `handleMessage`: when the target state declares an
action that the registry knows, invoke it on the session as captured so far;
on success merge the returned variables into the render variables and the
session data, on error change nothing but the fact that the action ran. -/
def runAction (tenant sender : Str) (cfg : FlowConfig)
    (registry : Str → Option ActionFn) (nextState : Str)
    (vars0 : List (Str × Str)) (sess1 : UserSession) :
    List (Str × Str) × UserSession × Option (Str × UserSession) :=
  match lookupAssoc cfg.states nextState with
  | none => (vars0, sess1, none)
  | some st =>
    if st.action ≠ [] then
      match registry st.action with
      | some f =>
        match f tenant sender sess1 with
        | .error _ => (vars0, sess1, some (st.action, sess1))
        | .ok newVars =>
          (newVars.foldl (fun a kv => insertVar a kv.1 kv.2) vars0,
           { sess1 with data := newVars.foldl (fun a kv => insertVar a kv.1 kv.2) sess1.data },
           some (st.action, sess1))
      | none => (vars0, sess1, none)
    else (vars0, sess1, none)

/-- src/main.go `handleMessage`, the per-message core: initialize or fetch
the session, build the render variables, capture an interactive selection,
resolve the transition, run the target state's action (merging its variables
on success, skipping the merge on error), persist the session with the new
state, and render the new state.  Webhook parsing, the WhatsApp client and
the config-cache miss path are external to this pure core. -/
def handleMessage (base tenant : Str) (cfg : FlowConfig)
    (registry : Str → Option ActionFn) (sessIn : Option UserSession)
    (contactName : Option Str) (msg : IncomingMessage) (now : Nat) : StepResult :=
  let sess0 := sessionBase sessIn now
  let vars0 := varsBase contactName sess0
  let sess1 := sessionAfterCapture sess0 msg
  let nextState := resolvedNext cfg sess1 msg
  let afterAction := runAction tenant msg.sender cfg registry nextState vars0 sess1
  let sessFinal := { afterAction.2.1 with state := nextState, updatedAt := now }
  { session := sessFinal,
    rendered := RenderAndSend base tenant cfg nextState afterAction.1,
    actionCalled := afterAction.2.2 }

/-! ### Concrete fixtures (the spec's demo flow) used by witnesses -/

def stMENU : FlowState :=
  { emptyState with
    type := "interactive_list".data,
    body := "Hola {{name}}, elegí:".data,
    list := some
      { header := "Menú".data,
        buttonText := "Ver".data,
        footer := [],
        sections := [
          { title := "Opciones".data,
            rows := [
              { id := "A".data, title := "Precios".data, description := [] },
              { id := "B".data, title := "Contacto".data, description := [] }] }] },
    onSelectNext := [("A".data, "PRICING".data), ("B".data, "CONTACT".data)] }

def stPRICING : FlowState :=
  { emptyState with
    type := "text".data,
    body := "Our price is {{price}}".data,
    action := "fetch_price".data,
    onTextNext := "CONTACT".data }

def stCONTACT : FlowState :=
  { emptyState with
    type := "text".data,
    body := "Escribinos".data }

def cfgDemo : FlowConfig :=
  { version := "1".data,
    states := [("MENU".data, stMENU), ("PRICING".data, stPRICING),
      ("CONTACT".data, stCONTACT)] }

/-- A flow whose only state has a dangling `on_text_next` target. -/
def cfgDangling : FlowConfig :=
  { version := "1".data,
    states := [("A".data,
      { emptyState with
        type := "text".data,
        body := "hola".data,
        onTextNext := "GHOST".data })] }

def rowBad : FlowRow :=
  { id := "A".data, title := "Una fila con un título demasiado largo".data,
    description := [] }

def secBad : FlowSection := { title := "S".data, rows := [rowBad] }

def lBadList : FlowList :=
  { header := "H".data, buttonText := "Ver".data, footer := [],
    sections := [secBad] }

def stBadList : FlowState :=
  { emptyState with
    type := "interactive_list".data,
    body := "b".data,
    list := some lBadList }

/-- A flow with a list state whose row title exceeds 24 code points. -/
def cfgBadList : FlowConfig :=
  { version := "1".data, states := [("MENU".data, stBadList)] }

/-- A header of 40 two-byte characters: 40 code points (within the 60
limit) but 80 UTF-8 bytes (over it). -/
def mbHeader : Str := List.replicate 40 'ñ'

/-- A flow whose list header is within the code-point limit but over 60
UTF-8 bytes; the validator accepts it. -/
def cfgMultibyte : FlowConfig :=
  { version := "1".data,
    states := [("MENU".data,
      { emptyState with
        type := "interactive_list".data,
        body := "b".data,
        list := some
          { header := mbHeader,
            buttonText := "Ver".data,
            footer := [],
            sections := [
              { title := "S".data,
                rows := [
                  { id := "A".data,
                    title := "Fila".data,
                    description := [] }] }] } })] }

def bOK : FlowButtons :=
  { header := "Turnos".data, footer := [],
    buttons := [
      { id := "SLOT_1".data, title := "{{slot_1}}".data },
      { id := "SLOT_2".data, title := "{{slot_2}}".data }] }

def stButtonsOK : FlowState :=
  { emptyState with
    type := "interactive_buttons".data,
    body := "Elegí un turno".data,
    buttons := some bOK }

def cfgButtonsOK : FlowConfig :=
  { version := "1".data, states := [("BTN".data, stButtonsOK)] }

def bBad : FlowButtons :=
  { header := [], footer := [],
    buttons := [
      { id := "1".data, title := "a".data },
      { id := "2".data, title := "b".data },
      { id := "3".data, title := "c".data },
      { id := "4".data, title := "d".data }] }

def stBadButtons : FlowState :=
  { emptyState with
    type := "interactive_buttons".data,
    body := "x".data,
    buttons := some bBad }

/-- A flow whose buttons state has four buttons (over the limit of 3). -/
def cfgBadButtons : FlowConfig :=
  { version := "1".data, states := [("BTN".data, stBadButtons)] }

/-- A text state whose body is a single placeholder, for the substitution
claims. -/
def stSubst : FlowState :=
  { emptyState with type := "text".data, body := "{{a}}".data }

def cfgSubst : FlowConfig :=
  { version := "1".data, states := [("S".data, stSubst)] }

/-- One enumeration order of the variable map `{a ↦ "{{b}}", b ↦ "x"}`. -/
def varsP1 : List (Str × Str) := [("a".data, "{{b}}".data), ("b".data, "x".data)]

/-- The other enumeration order of the same map. -/
def varsP2 : List (Str × Str) := [("b".data, "x".data), ("a".data, "{{b}}".data)]

def varsDemo : List (Str × Str) := [("name".data, "Ana".data)]

def textMsg (b : Str) : IncomingMessage :=
  { sender := "5491155".data, id := "m1".data, timestamp := "0".data,
    type := "text".data, text := some { body := b }, interactive := none }

def listReplyMsg (rid : Str) : IncomingMessage :=
  { sender := "5491155".data, id := "m2".data, timestamp := "0".data,
    type := "interactive".data, text := none,
    interactive := some
      { type := "list_reply".data,
        buttonReply := none,
        listReply := some { id := rid, title := rid, description := [] } } }

/-! ### Well-formed templates and parallel substitution

The spec's reading of `{{key}}` substitution is a one-pass, parallel
replacement: each placeholder whose key is in the variable map becomes the
map's value, all others stay verbatim.  The Go code instead folds
`strings.ReplaceAll` over the map in an unspecified enumeration order.  The
two agree — and the fold is order-independent — on well-formed inputs: a
body alternating brace-free literal text with `{{key}}` placeholders, and
brace-free keys and values.  `Tok`/`flattenTok` describe such bodies. -/

inductive Tok where
  | lit (s : Str)
  | hole (k : Str)
deriving DecidableEq

def flattenTok : List Tok → Str
  | [] => []
  | .lit s :: ts => s ++ flattenTok ts
  | .hole k :: ts => "\x7b\x7b".data ++ k ++ "\x7d\x7d".data ++ flattenTok ts

/-- No brace characters occur in `s`. -/
def braceless (s : Str) : Prop := ∀ c ∈ s, c ≠ '{' ∧ c ≠ '}'

instance (s : Str) : Decidable (braceless s) := by
  unfold braceless; infer_instance

def TokWF : Tok → Prop
  | .lit s => braceless s
  | .hole k => braceless k

instance (t : Tok) : Decidable (TokWF t) := by
  cases t <;> (unfold TokWF; infer_instance)

def ToksWF (ts : List Tok) : Prop := ∀ t ∈ ts, TokWF t

instance (ts : List Tok) : Decidable (ToksWF ts) := by
  unfold ToksWF; infer_instance

/-- Keys and values of the variable map are brace-free. -/
def VarsWF (vars : List (Str × Str)) : Prop :=
  ∀ kv ∈ vars, braceless kv.1 ∧ braceless kv.2

instance (vars : List (Str × Str)) : Decidable (VarsWF vars) := by
  unfold VarsWF; infer_instance

/-- A string is a well-formed template when it flattens from some token
list: brace-free literals alternating with `{{key}}` placeholders. -/
def WFStr (s : Str) : Prop := ∃ ts, ToksWF ts ∧ s = flattenTok ts

/-- Every template string the renderer substitutes into for a state is a
well-formed template. -/
def StateWF (st : FlowState) : Prop :=
  WFStr st.body ∧ WFStr (effectiveBody st) ∧
  (∀ m, st.headerMedia = some m → WFStr m.path) ∧
  (∀ l, st.list = some l → WFStr l.header ∧ WFStr l.footer ∧ WFStr l.buttonText ∧
    ∀ sec ∈ l.sections, WFStr sec.title ∧
      ∀ r ∈ sec.rows, WFStr r.title ∧ WFStr r.description) ∧
  (∀ b, st.buttons = some b → WFStr b.header ∧ WFStr b.footer ∧
    ∀ btn ∈ b.buttons, WFStr btn.title)

/-- Parallel (spec-side) substitution: a placeholder becomes the map's value
for its key (first binding) and stays verbatim when the key is absent;
literal text is untouched. -/
def parSubst (vars : List (Str × Str)) : List Tok → List Tok :=
  List.map (fun t =>
    match t with
    | .hole k =>
      match lookupAssoc vars k with
      | some v => .lit v
      | none => .hole k
    | .lit s => .lit s)

/-- Replacement of the holes of one key by a literal, the effect of one
`strings.ReplaceAll` pass on a well-formed template. -/
def substHole (k v : Str) : List Tok → List Tok :=
  List.map (fun t =>
    match t with
    | .hole k1 => if k1 = k then .lit v else .hole k1
    | .lit s => .lit s)

/-- Template `"Hola {{name}}, {{missing}}"` as tokens. -/
def tsDemo : List Tok :=
  [Tok.lit "Hola ".data, Tok.hole "name".data, Tok.lit ", ".data,
   Tok.hole "missing".data]

/-- The pattern `"{{" ++ k ++ "}}"` in cons normal form. -/
def patOf (k : Str) : Str := '{' :: '{' :: (k ++ ['}', '}'])

/-- The fold the `renderVars` loop computes, with the pattern in normal
form. -/
def renderFold (s : Str) (vars : List (Str × Str)) : Str :=
  vars.foldl (fun acc kv => replaceAll (patOf kv.1) kv.2 acc) s

/-- The parent-directory segment. -/
def ddStr : Str := ['.', '.']

/-- Normal form of a cleaned segment stack: segments are non-empty and
slash-free, and every `".."` sits in a leading run. -/
def CleanNF (segs : List Str) : Prop :=
  (∀ x ∈ segs, x ≠ [] ∧ ¬ '/' ∈ x) ∧
  ∃ n rest, segs = List.replicate n ddStr ++ rest ∧ ddStr ∉ rest

/-- An inbound event recognized by the current state: the current state
exists in the flow and the event matches one of its transitions — the
reserved `menu` keyword, a declared `on_text_next`, or a selected option id
mapped by `on_select_next` to a non-empty state name. -/
def Recognized (cfg : FlowConfig) (state : Str) (msg : IncomingMessage) : Prop :=
  ∃ st, lookupAssoc cfg.states state = some st ∧
    ((msg.type = "text".data ∧ ∃ t, msg.text = some t ∧
        (equalFold (trimSpace t.body) "menu".data = true ∨ st.onTextNext ≠ [])) ∨
     (msg.type = "interactive".data ∧ ∃ i, msg.interactive = some i ∧
        ((i.type = "list_reply".data ∧ ∃ lr, i.listReply = some lr ∧
            ∃ ns, lookupAssoc st.onSelectNext lr.id = some ns ∧ ns ≠ []) ∨
         (i.type = "button_reply".data ∧ ∃ br, i.buttonReply = some br ∧
            ∃ ns, lookupAssoc st.onSelectNext br.id = some ns ∧ ns ≠ []))))

/-- A registry whose `fetch_price` handler always fails. -/
def registryFail : Str → Option ActionFn :=
  fun a => if a = "fetch_price".data then
    some (fun _ _ _ => .error "boom".data)
  else none

/-! ## Sanity checks of the string primitives on concrete inputs -/

example : trimSpace "  menu ".data = "menu".data := by decide

example : equalFold "MeNu".data "menu".data = true := by decide

example : equalFold "menus".data "menu".data = false := by decide

example : renderVars "Hola {{name}}!".data [("name".data, "Ana".data)]
    = "Hola Ana!".data := by decide

example : renderVars "Hola {{missing}}!".data [("name".data, "Ana".data)]
    = "Hola {{missing}}!".data := by decide

example : runeLen "ñandú".data = 5 := by decide

example : utf8ByteLen "ñandú".data = 7 := by decide

example : pathClean "a//b/./c".data = "a/b/c".data := by decide

example : pathClean "a/../../b".data = "../b".data := by decide

example : pathClean "".data = ".".data := by decide

example : buildPublicAssetURL "https://x.io/".data "broker".data "img/a b.png".data
    = .ok "https://x.io/tenants/broker/assets/img/a%20b.png".data := rfl

example : (buildPublicAssetURL "https://x.io".data "broker".data "../secret".data).isOk
    = false := rfl

example : (buildPublicAssetURL "https://x.io".data "broker".data "a/../../b".data).isOk
    = false := rfl

/-! ## Lemma layer -/

/-- A brace-free string is a well-formed template (a single literal). -/
lemma WFStr_of_braceless {s : Str} (h : braceless s) : WFStr s :=
  ⟨[Tok.lit s], fun t ht => by
    rw [List.mem_singleton] at ht
    rw [ht]
    exact h,
   by show s = s ++ []; rw [List.append_nil]⟩

example :
    renderVars "{{a}}".data [("a".data, "{{b}}".data), ("b".data, "x".data)]
      = "x".data := by decide

example :
    flattenTok (parSubst [("a".data, "{{b}}".data), ("b".data, "x".data)]
      [Tok.hole "a".data]) = "{{b}}".data := by decide

example :
    renderVars "{{a}}".data [("b".data, "x".data), ("a".data, "{{b}}".data)]
      = "{{b}}".data := by decide

/-! ### Lemmas: sequential `ReplaceAll` equals parallel substitution on
well-formed templates -/

lemma patOf_eq (k : Str) : "\x7b\x7b".data ++ k ++ "\x7d\x7d".data = patOf k := by
  simp [patOf]

lemma patOf_ne_nil (k : Str) : patOf k ≠ [] := by simp [patOf]

lemma isPrefixOf_cons {a b : Char} {as bs : Str} :
    (a :: as).isPrefixOf (b :: bs) = (a == b && as.isPrefixOf bs) := rfl

lemma not_prefixOf_head {p c : Char} {ps cs : Str} (h : p ≠ c) :
    (p :: ps).isPrefixOf (c :: cs) = false := by
  simp [isPrefixOf_cons, h]

lemma isPrefixOf_self_append (l t : Str) : l.isPrefixOf (l ++ t) = true := by
  induction l with
  | nil => simp [List.isPrefixOf]
  | cons a as ih => simp [isPrefixOf_cons, ih]

lemma go_append_nomatch {pat : Str} (rep : Str) (hpat : pat.head? = some '{')
    (s t : Str) (hs : ∀ c ∈ s, c ≠ '{') :
    replaceAllGo pat rep (s ++ t) 0 = s ++ replaceAllGo pat rep t 0 := by
  cases pat with
  | nil => simp at hpat
  | cons p ps =>
    have hp : p = '{' := by simpa using hpat
    subst hp
    induction s with
    | nil => rfl
    | cons c s ih =>
      have hc : c ≠ '{' := fun h => (hs c (by simp)) h
      have hpre : ('{' :: ps).isPrefixOf (c :: (s ++ t)) = false :=
        not_prefixOf_head (fun h => hc h.symm)
      show replaceAllGo _ _ (c :: (s ++ t)) 0 = _
      rw [replaceAllGo, hpre]
      simp only [Bool.false_eq_true, if_false, List.cons_append, List.cons.injEq,
        true_and]
      exact ih (fun c hmem => hs c (by simp [hmem]))

lemma go_skip (pat rep : Str) (xs t : Str) :
    replaceAllGo pat rep (xs ++ t) xs.length = replaceAllGo pat rep t 0 := by
  induction xs with
  | nil => rfl
  | cons c xs ih =>
    show replaceAllGo pat rep (c :: (xs ++ t)) (xs.length + 1) = _
    rw [replaceAllGo]
    exact ih

lemma go_match (pat rep rest : Str) (hne : pat ≠ []) :
    replaceAllGo pat rep (pat ++ rest) 0 = rep ++ replaceAllGo pat rep rest 0 := by
  cases pat with
  | nil => exact absurd rfl hne
  | cons p ps =>
    show replaceAllGo _ _ (p :: (ps ++ rest)) 0 = _
    rw [replaceAllGo, show (p :: (ps ++ rest)) = ((p :: ps) ++ rest) from rfl,
      isPrefixOf_self_append]
    simp only [if_true, List.length_cons, Nat.add_sub_cancel, List.append_cancel_left_eq]
    exact go_skip _ _ _ _

lemma key_mismatch {k k' : Str} (rest : Str) (hne : k ≠ k')
    (hk : braceless k) (hk' : braceless k') :
    (k ++ ['}', '}']).isPrefixOf (k' ++ '}' :: '}' :: rest) = false := by
  induction k generalizing k' with
  | nil =>
    cases k' with
    | nil => exact absurd rfl hne
    | cons b k2 =>
      have hb : b ≠ '}' := fun h => ((hk' b (by simp)).2) h
      exact not_prefixOf_head (fun h => hb h.symm)
  | cons a k1 ih =>
    cases k' with
    | nil =>
      have ha : a ≠ '}' := (hk a (by simp)).2
      exact not_prefixOf_head ha
    | cons b k2 =>
      by_cases hab : a = b
      · subst hab
        have h1 : k1 ≠ k2 := fun h => hne (by rw [h])
        show ((a :: k1) ++ ['}', '}']).isPrefixOf ((a :: k2) ++ _) = false
        rw [List.cons_append, List.cons_append, isPrefixOf_cons]
        simp only [beq_self_eq_true, Bool.true_and]
        exact ih h1 (fun c hc => hk c (by simp [hc]))
          (fun c hc => hk' c (by simp [hc]))
      · exact not_prefixOf_head hab

lemma open_not_prefixOf_key {zs : Str} (k' ws : Str)
    (hk' : ∀ c ∈ k', c ≠ '{') :
    ('{' :: zs).isPrefixOf (k' ++ '}' :: ws) = false := by
  cases k' with
  | nil => exact not_prefixOf_head (by decide)
  | cons b k2 =>
    exact not_prefixOf_head (fun h => (hk' b (by simp)) h.symm)

lemma pat_not_prefixOf_hole {k k' : Str} (rest : Str) (hne : k ≠ k')
    (hk : braceless k) (hk' : braceless k') :
    (patOf k).isPrefixOf (patOf k' ++ rest) = false := by
  show (patOf k).isPrefixOf ('{' :: '{' :: ((k' ++ ['}', '}']) ++ rest)) = false
  rw [patOf, isPrefixOf_cons, isPrefixOf_cons]
  simp only [beq_self_eq_true, Bool.true_and]
  rw [show (k' ++ ['}', '}']) ++ rest = k' ++ '}' :: '}' :: rest by simp]
  exact key_mismatch rest hne hk hk'

lemma go_hole_other {k k' : Str} (rep rest : Str) (hne : k ≠ k')
    (hk : braceless k) (hk' : braceless k') :
    replaceAllGo (patOf k) rep (patOf k' ++ rest) 0
      = patOf k' ++ replaceAllGo (patOf k) rep rest 0 := by
  have hk'open : ∀ c ∈ k', c ≠ '{' := fun c hc => (hk' c hc).1
  have step1 := pat_not_prefixOf_hole rest hne hk hk'
  have step2 : (patOf k).isPrefixOf ('{' :: (k' ++ '}' :: '}' :: rest)) = false := by
    rw [patOf, isPrefixOf_cons]
    simp only [beq_self_eq_true, Bool.true_and]
    exact open_not_prefixOf_key k' _ hk'open
  have hshape : patOf k' ++ rest = '{' :: '{' :: (k' ++ '}' :: '}' :: rest) := by
    simp [patOf]
  rw [hshape] at step1
  calc replaceAllGo (patOf k) rep (patOf k' ++ rest) 0
      = replaceAllGo (patOf k) rep ('{' :: '{' :: (k' ++ '}' :: '}' :: rest)) 0 := by
        rw [hshape]
    _ = '{' :: replaceAllGo (patOf k) rep ('{' :: (k' ++ '}' :: '}' :: rest)) 0 := by
        rw [replaceAllGo, step1]
        simp only [Bool.false_eq_true, if_false]
    _ = '{' :: '{' :: replaceAllGo (patOf k) rep (k' ++ '}' :: '}' :: rest) 0 := by
        rw [replaceAllGo, step2]
        simp only [Bool.false_eq_true, if_false]
    _ = '{' :: '{' :: (k' ++ replaceAllGo (patOf k) rep ('}' :: '}' :: rest) 0) := by
        rw [go_append_nomatch rep (by rw [patOf]; rfl) k' _ hk'open]
    _ = '{' :: '{' :: (k' ++ '}' :: replaceAllGo (patOf k) rep ('}' :: rest) 0) := by
        rw [replaceAllGo,
          show (patOf k).isPrefixOf ('}' :: '}' :: rest) = false by
            rw [patOf]; exact not_prefixOf_head (by decide)]
        simp only [Bool.false_eq_true, if_false]
    _ = '{' :: '{' :: (k' ++ '}' :: '}' :: replaceAllGo (patOf k) rep rest 0) := by
        rw [replaceAllGo,
          show (patOf k).isPrefixOf ('}' :: rest) = false by
            rw [patOf]; exact not_prefixOf_head (by decide)]
        simp only [Bool.false_eq_true, if_false]
    _ = patOf k' ++ replaceAllGo (patOf k) rep rest 0 := by
        simp [patOf]

lemma braceless_of_toksWF_lit {s : Str} {ts : List Tok}
    (h : ToksWF (.lit s :: ts)) : braceless s :=
  h (.lit s) (by simp)

lemma flattenTok_hole (k : Str) (ts : List Tok) :
    flattenTok (.hole k :: ts) = patOf k ++ flattenTok ts := by
  simp [flattenTok, patOf]

lemma go_flatten {k : Str} (v : Str) (hk : braceless k) :
    ∀ ts : List Tok, ToksWF ts →
      replaceAllGo (patOf k) v (flattenTok ts) 0 = flattenTok (substHole k v ts) := by
  intro ts hts
  induction ts with
  | nil => rfl
  | cons t ts ih =>
    have hts' : ToksWF ts := fun t ht => hts t (by simp [ht])
    cases t with
    | lit s =>
      have hs : braceless s := braceless_of_toksWF_lit hts
      show replaceAllGo (patOf k) v (s ++ flattenTok ts) 0 = _
      rw [go_append_nomatch v (by rw [patOf]; rfl) s _ (fun c hc => (hs c hc).1),
        ih hts']
      have hsub : substHole k v (Tok.lit s :: ts) = Tok.lit s :: substHole k v ts := by
        simp [substHole]
      rw [hsub]
      rfl
    | hole k1 =>
      have hk1 : braceless k1 := hts (.hole k1) (by simp)
      rw [flattenTok_hole]
      by_cases hkk : k1 = k
      · subst hkk
        rw [go_match _ _ _ (patOf_ne_nil k1), ih hts']
        have hsub : substHole k1 v (Tok.hole k1 :: ts)
            = Tok.lit v :: substHole k1 v ts := by
          simp [substHole]
        rw [hsub]
        rfl
      · rw [go_hole_other v _ (fun h => hkk h.symm) hk hk1, ih hts']
        have hsub : substHole k v (Tok.hole k1 :: ts)
            = Tok.hole k1 :: substHole k v ts := by
          simp [substHole, hkk]
        rw [hsub, flattenTok_hole]

lemma replaceAll_nil (pat rep : Str) : replaceAll pat rep [] = [] := by
  unfold replaceAll
  split <;> rfl

lemma renderFold_nil_body (vars : List (Str × Str)) : renderFold [] vars = [] := by
  induction vars with
  | nil => rfl
  | cons kv vars ih =>
    show renderFold (replaceAll (patOf kv.1) kv.2 []) vars = []
    rw [replaceAll_nil]
    exact ih

lemma renderVars_eq_fold (s : Str) (vars : List (Str × Str)) :
    renderVars s vars = renderFold s vars := by
  unfold renderVars
  split
  · rename_i h
    rcases h with h | h
    · subst h; exact (renderFold_nil_body vars).symm
    · subst h; rfl
  · unfold renderFold
    congr 1

lemma substHole_toksWF {k v : Str} (hv : braceless v) {ts : List Tok}
    (hts : ToksWF ts) : ToksWF (substHole k v ts) := by
  intro t ht
  rcases List.mem_map.mp ht with ⟨t0, ht0, rfl⟩
  cases t0 with
  | lit s => exact hts (.lit s) ht0
  | hole k1 =>
    by_cases hkk : k1 = k
    · simp only [substHole, hkk, if_true]
      exact hv
    · simp only [substHole, hkk, if_false]
      exact hts (.hole k1) ht0

lemma parSubst_nil (ts : List Tok) : parSubst [] ts = ts := by
  induction ts with
  | nil => rfl
  | cons t ts ih =>
    cases t with
    | lit s =>
      show Tok.lit s :: parSubst [] ts = _
      rw [ih]
    | hole k =>
      show Tok.hole k :: parSubst [] ts = _
      rw [ih]

lemma parSubst_substHole (k v : Str) (vars : List (Str × Str)) (ts : List Tok) :
    parSubst vars (substHole k v ts) = parSubst ((k, v) :: vars) ts := by
  induction ts with
  | nil => rfl
  | cons t ts ih =>
    cases t with
    | lit s =>
      have h1 : substHole k v (Tok.lit s :: ts) = Tok.lit s :: substHole k v ts := by
        simp [substHole]
      rw [h1]
      show Tok.lit s :: parSubst vars (substHole k v ts) = Tok.lit s :: parSubst _ ts
      rw [ih]
    | hole k1 =>
      by_cases hkk : k1 = k
      · subst hkk
        have h1 : substHole k1 v (Tok.hole k1 :: ts)
            = Tok.lit v :: substHole k1 v ts := by
          simp [substHole]
        have h2 : lookupAssoc ((k1, v) :: vars) k1 = some v := by
          simp [lookupAssoc]
        calc parSubst vars (substHole k1 v (Tok.hole k1 :: ts))
            = Tok.lit v :: parSubst vars (substHole k1 v ts) := by rw [h1]; rfl
          _ = Tok.lit v :: parSubst ((k1, v) :: vars) ts := by rw [ih]
          _ = parSubst ((k1, v) :: vars) (Tok.hole k1 :: ts) := by
              show _ = (match lookupAssoc ((k1, v) :: vars) k1 with
                | some w => Tok.lit w
                | none => Tok.hole k1) :: parSubst ((k1, v) :: vars) ts
              rw [h2]
      · have h1 : substHole k v (Tok.hole k1 :: ts)
            = Tok.hole k1 :: substHole k v ts := by
          simp [substHole, hkk]
        have hkk2 : ¬ (k = k1) := fun h => hkk h.symm
        have h2 : lookupAssoc ((k, v) :: vars) k1 = lookupAssoc vars k1 := by
          simp [lookupAssoc, hkk2]
        calc parSubst vars (substHole k v (Tok.hole k1 :: ts))
            = (match lookupAssoc vars k1 with
                | some w => Tok.lit w
                | none => Tok.hole k1) :: parSubst vars (substHole k v ts) := by
              rw [h1]; rfl
          _ = (match lookupAssoc vars k1 with
                | some w => Tok.lit w
                | none => Tok.hole k1) :: parSubst ((k, v) :: vars) ts := by rw [ih]
          _ = parSubst ((k, v) :: vars) (Tok.hole k1 :: ts) := by
              show _ = (match lookupAssoc ((k, v) :: vars) k1 with
                | some w => Tok.lit w
                | none => Tok.hole k1) :: parSubst ((k, v) :: vars) ts
              rw [h2]

lemma renderFold_flatten :
    ∀ (vars : List (Str × Str)) (ts : List Tok), ToksWF ts → VarsWF vars →
      renderFold (flattenTok ts) vars = flattenTok (parSubst vars ts) := by
  intro vars
  induction vars with
  | nil => intro ts _ _; rw [parSubst_nil]; rfl
  | cons kv vars ih =>
    intro ts hts hvars
    obtain ⟨k, v⟩ := kv
    have hk : braceless k := (hvars (k, v) (by simp)).1
    have hv : braceless v := (hvars (k, v) (by simp)).2
    show renderFold (replaceAll (patOf k) v (flattenTok ts)) vars = _
    rw [show replaceAll (patOf k) v (flattenTok ts)
        = replaceAllGo (patOf k) v (flattenTok ts) 0 by
      unfold replaceAll; rw [if_neg (patOf_ne_nil k)]]
    rw [go_flatten v hk ts hts]
    rw [ih (substHole k v ts) (substHole_toksWF hv hts)
      (fun kv hkv => hvars kv (by simp [hkv]))]
    rw [parSubst_substHole]

/-- Sequential substitution in any enumeration order equals the parallel
(spec-side) substitution on well-formed templates and variables. -/
lemma renderVars_flatten (vars : List (Str × Str)) (ts : List Tok)
    (hts : ToksWF ts) (hvars : VarsWF vars) :
    renderVars (flattenTok ts) vars = flattenTok (parSubst vars ts) := by
  rw [renderVars_eq_fold]
  exact renderFold_flatten vars ts hts hvars

/-! ### Order-independence of substitution on well-formed inputs -/

lemma lookupAssoc_perm {l1 l2 : List (Str × Str)} (h : l1.Perm l2)
    (hn : (l1.map Prod.fst).Nodup) (k : Str) :
    lookupAssoc l1 k = lookupAssoc l2 k := by
  induction h with
  | nil => rfl
  | cons x h ih =>
    obtain ⟨k1, v1⟩ := x
    show (if k1 = k then some v1 else lookupAssoc _ k)
      = (if k1 = k then some v1 else lookupAssoc _ k)
    by_cases hk : k1 = k
    · simp [hk]
    · simp only [hk, if_false]
      exact ih (List.Nodup.of_cons hn)
  | swap x y l =>
    obtain ⟨k1, v1⟩ := x
    obtain ⟨k2, v2⟩ := y
    have hne : k2 ≠ k1 := by
      simp only [List.map_cons, List.nodup_cons, List.mem_cons] at hn
      exact fun h12 => hn.1 (Or.inl h12)
    show (if k2 = k then some v2 else if k1 = k then some v1 else lookupAssoc l k)
      = (if k1 = k then some v1 else if k2 = k then some v2 else lookupAssoc l k)
    by_cases h1 : k1 = k <;> by_cases h2 : k2 = k
    · exact absurd (h2.trans h1.symm) hne
    · simp [h1, h2]
    · simp [h1, h2]
    · simp [h1, h2]
  | trans h12 _ ih12 ih23 =>
    rw [ih12 hn, ih23 (((h12.map Prod.fst).nodup_iff).mp hn)]

lemma VarsWF_of_perm {vars1 vars2 : List (Str × Str)} (h : vars1.Perm vars2)
    (hw : VarsWF vars1) : VarsWF vars2 :=
  fun kv hkv => hw kv (h.mem_iff.mpr hkv)

lemma parSubst_congr {vars1 vars2 : List (Str × Str)}
    (h : ∀ k, lookupAssoc vars1 k = lookupAssoc vars2 k) (ts : List Tok) :
    parSubst vars1 ts = parSubst vars2 ts := by
  unfold parSubst
  apply List.map_congr_left
  intro t _
  cases t with
  | lit s => rfl
  | hole k =>
    show (match lookupAssoc vars1 k with
      | some v => Tok.lit v
      | none => Tok.hole k)
      = (match lookupAssoc vars2 k with
      | some v => Tok.lit v
      | none => Tok.hole k)
    rw [h k]

/-- Substitution does not depend on the enumeration order of the variable
map, provided the keys are distinct (Go maps guarantee this), keys and
values are brace-free, and the template is well-formed. -/
lemma renderVars_perm {vars1 vars2 : List (Str × Str)} {s : Str}
    (hp : vars1.Perm vars2) (hn : (vars1.map Prod.fst).Nodup)
    (hw : VarsWF vars1) (hs : WFStr s) :
    renderVars s vars1 = renderVars s vars2 := by
  obtain ⟨ts, hts, rfl⟩ := hs
  rw [renderVars_flatten vars1 ts hts hw,
    renderVars_flatten vars2 ts hts (VarsWF_of_perm hp hw),
    parSubst_congr (fun k => lookupAssoc_perm hp hn k) ts]

/-! ### Lemmas: lexical path cleaning leaves parent segments only as a
leading run, so the `".."`-prefix test of `buildPublicAssetURL` catches
every parent-directory segment of the cleaned path -/

lemma ddStr_props : ddStr ≠ [] ∧ ¬ '/' ∈ ddStr := by decide

lemma cleanStep_NF {acc : List Str} {seg : Str} (hacc : CleanNF acc)
    (hseg : ¬ '/' ∈ seg) : CleanNF (cleanStep acc seg) := by
  obtain ⟨helem, n, rest, hdecomp, hndd⟩ := hacc
  unfold cleanStep
  by_cases h1 : seg = [] ∨ seg = ['.']
  · rw [if_pos h1]
    exact ⟨helem, n, rest, hdecomp, hndd⟩
  · rw [if_neg h1]
    by_cases h2 : seg = ['.', '.']
    · rw [if_pos h2]
      subst h2
      cases rest with
      | nil =>
        rw [List.append_nil] at hdecomp
        cases n with
        | zero =>
          have hacc0 : acc = [] := by simpa using hdecomp
          subst hacc0
          show CleanNF [['.', '.']]
          exact ⟨fun x hx => by
              rw [List.mem_singleton] at hx
              rw [hx]
              exact ddStr_props,
            1, [], by simp [ddStr, List.replicate], by simp⟩
        | succ m =>
          have hlast : acc.getLast? = some ddStr := by
            rw [hdecomp,
              List.getLast?_eq_getLast_of_ne_nil (by simp [List.replicate_succ])]
            rw [List.getLast_replicate_succ]
          simp only [hlast]
          rw [if_pos (show ddStr = ['.', '.'] from rfl)]
          refine ⟨fun x hx => ?_, m + 2, [], ?_, by simp⟩
          · rcases List.mem_append.mp hx with hx | hx
            · exact helem x hx
            · rw [List.mem_singleton] at hx
              rw [hx]
              exact ddStr_props
          · rw [hdecomp, List.append_nil]
            show List.replicate (m + 1) ddStr ++ [ddStr] = _
            rw [← List.replicate_succ']
      | cons r rs =>
        have hlastr : (r :: rs) ≠ ([] : List Str) := List.cons_ne_nil r rs
        have hlast : acc.getLast? = some ((r :: rs).getLast hlastr) := by
          rw [hdecomp, List.getLast?_append_cons,
            List.getLast?_eq_getLast_of_ne_nil hlastr]
        have hlne : (r :: rs).getLast hlastr ≠ ddStr := fun h =>
          hndd (h ▸ List.getLast_mem hlastr)
        simp only [hlast]
        rw [if_neg (show (r :: rs).getLast hlastr ≠ ['.', '.'] from hlne)]
        refine ⟨fun x hx => helem x (List.dropLast_subset acc hx),
          n, (r :: rs).dropLast, ?_, fun h => hndd (List.dropLast_subset _ h)⟩
        rw [hdecomp, List.dropLast_append_cons]
    · rw [if_neg h2]
      have hsegne : seg ≠ [] := fun h => h1 (Or.inl h)
      refine ⟨fun x hx => ?_, n, rest ++ [seg], ?_, ?_⟩
      · rcases List.mem_append.mp hx with hx | hx
        · exact helem x hx
        · rw [List.mem_singleton] at hx
          rw [hx]
          exact ⟨hsegne, hseg⟩
      · rw [hdecomp, List.append_assoc]
      · intro h
        rcases List.mem_append.mp h with h | h
        · exact hndd h
        · rw [List.mem_singleton] at h
          exact h2 h.symm

lemma splitSeg_no_slash_mem (s : Str) : ∀ seg ∈ splitSeg s, ¬ '/' ∈ seg := by
  induction s with
  | nil =>
    intro seg hseg
    rw [show splitSeg [] = [[]] from rfl, List.mem_singleton] at hseg
    rw [hseg]
    simp
  | cons c rest ih =>
    intro seg hseg
    by_cases hc : c = '/'
    · rw [show splitSeg (c :: rest) = if c = '/' then [] :: splitSeg rest
          else match splitSeg rest with
            | [] => [[c]]
            | s :: ss => (c :: s) :: ss from rfl,
        if_pos hc] at hseg
      rcases List.mem_cons.mp hseg with h | h
      · rw [h]; simp
      · exact ih seg h
    · rw [show splitSeg (c :: rest) = if c = '/' then [] :: splitSeg rest
          else match splitSeg rest with
            | [] => [[c]]
            | s :: ss => (c :: s) :: ss from rfl,
        if_neg hc] at hseg
      cases hm : splitSeg rest with
      | nil =>
        simp only [hm] at hseg
        rw [List.mem_singleton] at hseg
        rw [hseg]
        intro h
        rw [List.mem_singleton] at h
        exact hc h.symm
      | cons s ss =>
        simp only [hm] at hseg
        rcases List.mem_cons.mp hseg with h | h
        · rw [h]
          intro hin
          rcases List.mem_cons.mp hin with h2 | h2
          · exact hc h2.symm
          · exact ih s (by rw [hm]; exact List.mem_cons_self s ss) h2
        · exact ih seg (by rw [hm]; exact List.mem_cons_of_mem s h)

lemma cleanSegs_NF_aux : ∀ (segs : List Str) (acc : List Str), CleanNF acc →
    (∀ seg ∈ segs, ¬ '/' ∈ seg) → CleanNF (segs.foldl cleanStep acc) := by
  intro segs
  induction segs with
  | nil => intro acc hacc _; exact hacc
  | cons seg segs ih =>
    intro acc hacc hall
    exact ih (cleanStep acc seg) (cleanStep_NF hacc (hall seg (List.mem_cons_self _ _)))
      (fun x hx => hall x (List.mem_cons_of_mem _ hx))

lemma cleanSegs_NF (segs : List Str) (h : ∀ seg ∈ segs, ¬ '/' ∈ seg) :
    CleanNF (cleanSegs segs) :=
  cleanSegs_NF_aux segs [] ⟨by simp, 0, [], rfl, by simp⟩ h

lemma joinSlash_head_prefix (x : Str) (tail : List Str) :
    x.isPrefixOf (joinSlash (x :: tail)) = true := by
  cases tail with
  | nil =>
    show x.isPrefixOf x = true
    have h := isPrefixOf_self_append x []
    rwa [List.append_nil] at h
  | cons y ys =>
    show x.isPrefixOf (x ++ '/' :: joinSlash (y :: ys)) = true
    exact isPrefixOf_self_append _ _

lemma splitSeg_no_slash {x : Str} (h : ¬ '/' ∈ x) : splitSeg x = [x] := by
  induction x with
  | nil => rfl
  | cons c cs ih =>
    have hc : ¬ c = '/' := fun hh => h (by rw [hh]; exact List.mem_cons_self _ _)
    show (if c = '/' then [] :: splitSeg cs
      else match splitSeg cs with
        | [] => [[c]]
        | s :: ss => (c :: s) :: ss) = [c :: cs]
    rw [if_neg hc, ih (fun hh => h (List.mem_cons_of_mem c hh))]

lemma splitSeg_append_slash {x : Str} (h : ¬ '/' ∈ x) (t : Str) :
    splitSeg (x ++ '/' :: t) = x :: splitSeg t := by
  induction x with
  | nil =>
    show (if '/' = '/' then [] :: splitSeg t
      else match splitSeg t with
        | [] => [['/']]
        | s :: ss => ('/' :: s) :: ss) = [] :: splitSeg t
    rw [if_pos rfl]
  | cons c cs ih =>
    have hc : ¬ c = '/' := fun hh => h (by rw [hh]; exact List.mem_cons_self _ _)
    show (if c = '/' then [] :: splitSeg (cs ++ '/' :: t)
      else match splitSeg (cs ++ '/' :: t) with
        | [] => [[c]]
        | s :: ss => (c :: s) :: ss) = (c :: cs) :: splitSeg t
    rw [if_neg hc, ih (fun hh => h (List.mem_cons_of_mem c hh))]

lemma splitSeg_joinSlash : ∀ segs : List Str, segs ≠ [] →
    (∀ x ∈ segs, ¬ '/' ∈ x) → splitSeg (joinSlash segs) = segs := by
  intro segs
  induction segs with
  | nil => intro h; exact absurd rfl h
  | cons x tail ih =>
    intro _ hall
    cases tail with
    | nil =>
      show splitSeg (joinSlash [x]) = [x]
      exact splitSeg_no_slash (hall x (List.mem_cons_self _ _))
    | cons y ys =>
      show splitSeg (x ++ '/' :: joinSlash (y :: ys)) = x :: (y :: ys)
      rw [splitSeg_append_slash (hall x (List.mem_cons_self _ _)),
        ih (List.cons_ne_nil _ _) (fun z hz => hall z (List.mem_cons_of_mem _ hz))]

/-- After lexical cleaning, a parent-directory segment can only sit at the
front of the path, where the `".."`-prefix check catches it. -/
lemma pathClean_parent_prefix (s : Str)
    (h : ddStr ∈ splitSeg (pathClean s)) :
    pathClean s = ['.'] ∨ ddStr.isPrefixOf (pathClean s) = true := by
  have hNF : CleanNF (cleanSegs (splitSeg s)) :=
    cleanSegs_NF _ (splitSeg_no_slash_mem s)
  unfold pathClean at h ⊢
  cases hcs : cleanSegs (splitSeg s) with
  | nil => left; rfl
  | cons a tail =>
    right
    rw [hcs] at hNF
    have hsp : splitSeg (joinSlash (a :: tail)) = a :: tail :=
      splitSeg_joinSlash _ (List.cons_ne_nil _ _) (fun x hx => (hNF.1 x hx).2)
    rw [hcs] at h
    change ddStr ∈ splitSeg (joinSlash (a :: tail)) at h
    change ddStr.isPrefixOf (joinSlash (a :: tail)) = true
    rw [hsp] at h
    obtain ⟨helems, n, rest, hdec, hndd⟩ := hNF
    cases n with
    | zero =>
      exfalso
      rw [List.replicate, List.nil_append] at hdec
      rw [hdec] at h
      exact hndd h
    | succ m =>
      rw [List.replicate_succ, List.cons_append] at hdec
      have ha : a = ddStr := (List.cons.inj hdec).1
      rw [ha]
      exact joinSlash_head_prefix ddStr tail

lemma buildPublicAssetURL_eq (base tenant assetPath : Str) :
    buildPublicAssetURL base tenant assetPath =
      if trimRightSlash base = [] then
        .error "PUBLIC_BASE_URL no está configurada".data
      else if pathClean (trimLeftSlash assetPath) = ['.'] ∨
          "..".data.isPrefixOf (pathClean (trimLeftSlash assetPath)) ∨
          containsSub "../".data (pathClean (trimLeftSlash assetPath)) then
        .error ("assetPath inválido: ".data ++ assetPath)
      else
        .ok (trimRightSlash base ++ "/tenants/".data ++ pathEscape tenant ++
          "/assets/".data ++
          joinSlash ((splitSeg (pathClean (trimLeftSlash assetPath))).map pathEscape)) :=
  rfl

/-! # Claim theorems -/

/-- C9: `buildPublicAssetURL` returns an error whenever the cleaned asset
path is empty (it cleans to `"."`) or contains a parent-directory `".."`
segment — the error branch is the only outcome for such inputs — and every
accepted path yields the absolute URL under the tenant's asset namespace
`{base}/tenants/{tenant}/assets/…`. -/
theorem buildPublicAssetURL_traversal_safe (base tenant assetPath : Str) :
    ((pathClean (trimLeftSlash assetPath) = ['.'] ∨
        ddStr ∈ splitSeg (pathClean (trimLeftSlash assetPath))) →
      ∃ e, buildPublicAssetURL base tenant assetPath = .error e) ∧
    (∀ url, buildPublicAssetURL base tenant assetPath = .ok url →
      url = trimRightSlash base ++ "/tenants/".data ++ pathEscape tenant ++
        "/assets/".data ++
        joinSlash ((splitSeg (pathClean (trimLeftSlash assetPath))).map pathEscape)) := by
  rw [buildPublicAssetURL_eq]
  by_cases hbase : trimRightSlash base = []
  · rw [if_pos hbase]
    exact ⟨fun _ => ⟨_, rfl⟩, fun url h => Except.noConfusion h⟩
  · rw [if_neg hbase]
    by_cases hrej : pathClean (trimLeftSlash assetPath) = ['.'] ∨
        "..".data.isPrefixOf (pathClean (trimLeftSlash assetPath)) ∨
        containsSub "../".data (pathClean (trimLeftSlash assetPath))
    · rw [if_pos hrej]
      exact ⟨fun _ => ⟨_, rfl⟩, fun url h => Except.noConfusion h⟩
    · rw [if_neg hrej]
      constructor
      · intro hbad
        exfalso
        rcases hbad with hdot | hdd
        · exact hrej (Or.inl hdot)
        · rcases pathClean_parent_prefix _ hdd with hdot | hpre
          · exact hrej (Or.inl hdot)
          · exact hrej (Or.inr (Or.inl hpre))
      · intro url h
        exact (Except.ok.inj h).symm

/-- Witness for C9: the rejection branch fires on `"a/../../b"` (which
cleans to `"../b"`), and the acceptance branch produces the scoped URL for
`"img/a b.png"`. -/
theorem buildPublicAssetURL_traversal_safe_witness :
    (∃ e, buildPublicAssetURL "https://x.io".data "broker".data "a/../../b".data
      = .error e) ∧
    "https://x.io/tenants/broker/assets/img/a%20b.png".data
      = trimRightSlash "https://x.io".data ++ "/tenants/".data ++
        pathEscape "broker".data ++ "/assets/".data ++
        joinSlash ((splitSeg (pathClean
          (trimLeftSlash "img/a b.png".data))).map pathEscape) :=
  ⟨(buildPublicAssetURL_traversal_safe "https://x.io".data "broker".data
      "a/../../b".data).1 (by decide),
   (buildPublicAssetURL_traversal_safe "https://x.io".data "broker".data
      "img/a b.png".data).2 "https://x.io/tenants/broker/assets/img/a%20b.png".data
      rfl⟩

/-- C1: whenever the current state is absent from the flow or the event is
not recognized by it, the resolver returns the default state `"MENU"` with
`handled = false`; and the resolver (a total function — its only Go error
return is a config-load failure before resolution starts) never returns an
empty state name. -/
theorem processMessage_default_on_unrecognized (cfg : FlowConfig) (state : Str)
    (msg : IncomingMessage) :
    (¬ Recognized cfg state msg →
      processMessage cfg state msg = ("MENU".data, false)) ∧
    (processMessage cfg state msg).1 ≠ [] := by
  cases hlk : lookupAssoc cfg.states state with
  | none =>
    constructor
    · intro _
      simp [processMessage, hlk]
    · simp [processMessage, hlk]
  | some st =>
    by_cases h1 : msg.type = "text".data
    · cases ht : msg.text with
      | none =>
        constructor
        · intro _
          simp [processMessage, hlk, h1, ht]
        · simp [processMessage, hlk, h1, ht]
      | some t =>
        by_cases hmenu : equalFold (trimSpace t.body) "menu".data = true
        · constructor
          · intro hnr
            exact absurd ⟨st, hlk, Or.inl ⟨h1, t, ht, Or.inl hmenu⟩⟩ hnr
          · simp [processMessage, hlk, h1, ht, hmenu]
        · by_cases hnext : st.onTextNext = []
          · constructor
            · intro _
              simp [processMessage, hlk, h1, ht, hmenu, hnext]
            · simp [processMessage, hlk, h1, ht, hmenu, hnext]
          · constructor
            · intro hnr
              exact absurd ⟨st, hlk, Or.inl ⟨h1, t, ht, Or.inr hnext⟩⟩ hnr
            · simp [processMessage, hlk, h1, ht, hmenu, hnext]
    · by_cases h2 : msg.type = "interactive".data
      · cases hi : msg.interactive with
        | none =>
          constructor
          · intro _
            simp [processMessage, hlk, h1, h2, hi]
          · simp [processMessage, hlk, h1, h2, hi]
        | some i =>
          by_cases hil : i.type = "list_reply".data
          · cases hlr : i.listReply with
            | none =>
              constructor
              · intro _
                simp [processMessage, hlk, h1, h2, hi, hil, hlr]
              · simp [processMessage, hlk, h1, h2, hi, hil, hlr]
            | some lr =>
              cases hns : lookupAssoc st.onSelectNext lr.id with
              | none =>
                constructor
                · intro _
                  simp [processMessage, hlk, h1, h2, hi, hil, hlr, hns]
                · simp [processMessage, hlk, h1, h2, hi, hil, hlr, hns]
              | some ns =>
                by_cases hne : ns = []
                · constructor
                  · intro _
                    simp [processMessage, hlk, h1, h2, hi, hil, hlr, hns, hne]
                  · simp [processMessage, hlk, h1, h2, hi, hil, hlr, hns, hne]
                · constructor
                  · intro hnr
                    exact absurd ⟨st, hlk, Or.inr ⟨h2, i, hi,
                      Or.inl ⟨hil, lr, hlr, ns, hns, hne⟩⟩⟩ hnr
                  · simp [processMessage, hlk, h1, h2, hi, hil, hlr, hns, hne]
          · by_cases hib : i.type = "button_reply".data
            · cases hbr : i.buttonReply with
              | none =>
                constructor
                · intro _
                  simp [processMessage, hlk, h1, h2, hi, hil, hib, hbr]
                · simp [processMessage, hlk, h1, h2, hi, hil, hib, hbr]
              | some br =>
                cases hns : lookupAssoc st.onSelectNext br.id with
                | none =>
                  constructor
                  · intro _
                    simp [processMessage, hlk, h1, h2, hi, hil, hib, hbr, hns]
                  · simp [processMessage, hlk, h1, h2, hi, hil, hib, hbr, hns]
                | some ns =>
                  by_cases hne : ns = []
                  · constructor
                    · intro _
                      simp [processMessage, hlk, h1, h2, hi, hil, hib, hbr, hns, hne]
                    · simp [processMessage, hlk, h1, h2, hi, hil, hib, hbr, hns, hne]
                  · constructor
                    · intro hnr
                      exact absurd ⟨st, hlk, Or.inr ⟨h2, i, hi,
                        Or.inr ⟨hib, br, hbr, ns, hns, hne⟩⟩⟩ hnr
                    · simp [processMessage, hlk, h1, h2, hi, hil, hib, hbr, hns, hne]
            · constructor
              · intro _
                simp [processMessage, hlk, h1, h2, hi, hil, hib]
              · simp [processMessage, hlk, h1, h2, hi, hil, hib]
      · constructor
        · intro _
          simp [processMessage, hlk, h1, h2]
        · simp [processMessage, hlk, h1, h2]

/-- Witness for C1: a selection event whose row id has no transition from
the current state resolves to `("MENU", false)`. -/
theorem processMessage_default_on_unrecognized_witness :
    processMessage
      { version := "1".data,
        states := [("MENU".data,
          { emptyState with
            type := "interactive_list".data,
            onSelectNext := [("A".data, "PRICING".data)] })] }
      "MENU".data
      { sender := "5491".data, id := "m1".data, timestamp := "0".data,
        type := "interactive".data, text := none,
        interactive := some
          { type := "list_reply".data,
            buttonReply := none,
            listReply := some
              { id := "Z".data,
                title := "z".data,
                description := [] } } }
      = ("MENU".data, false) :=
  (processMessage_default_on_unrecognized _ _ _).1 (by
    intro h
    rcases h with ⟨st, hlk, h⟩
    rcases h with ⟨_, t, ht, _⟩ | ⟨_, i, hi, h⟩
    · exact Option.noConfusion ht
    · cases Option.some.inj hi
      rcases h with ⟨_, lr, hlr, ns, hns, _⟩ | ⟨hib, _, _, _⟩
      · cases Option.some.inj hlr
        cases Option.some.inj hlk
        exact Option.noConfusion hns
      · exact absurd hib (by decide))

/-- C8: for a text event from an existing state, the trimmed body equal to
the reserved keyword `menu` (case-insensitively) always resolves to
`("MENU", true)` regardless of `on_text_next`; otherwise a non-empty
`on_text_next` resolves to that state with `handled = true`. -/
theorem processMessage_text_rules (cfg : FlowConfig) (state : Str)
    (st : FlowState) (msg : IncomingMessage) (t : TextPayload)
    (hlk : lookupAssoc cfg.states state = some st)
    (htype : msg.type = "text".data) (htext : msg.text = some t) :
    (equalFold (trimSpace t.body) "menu".data = true →
      processMessage cfg state msg = ("MENU".data, true)) ∧
    (equalFold (trimSpace t.body) "menu".data = false → st.onTextNext ≠ [] →
      processMessage cfg state msg = (st.onTextNext, true)) := by
  constructor
  · intro hmenu
    simp [processMessage, hlk, htype, htext, hmenu]
  · intro hmenu hnext
    simp [processMessage, hlk, htype, htext, hmenu, hnext]

/-- Witness for C8: from `PRICING` (whose `on_text_next` is `CONTACT`), the
text `"  MeNu "` goes to `MENU` with `handled = true`, while `"hola"`
follows `on_text_next` to `CONTACT`. -/
theorem processMessage_text_rules_witness :
    processMessage cfgDemo "PRICING".data (textMsg "  MeNu ".data)
      = ("MENU".data, true) ∧
    processMessage cfgDemo "PRICING".data (textMsg "hola".data)
      = ("CONTACT".data, true) :=
  ⟨(processMessage_text_rules cfgDemo "PRICING".data stPRICING
      (textMsg "  MeNu ".data) { body := "  MeNu ".data } rfl rfl rfl).1 (by decide),
   (processMessage_text_rules cfgDemo "PRICING".data stPRICING
      (textMsg "hola".data) { body := "hola".data } rfl rfl rfl).2
      (by decide) (by decide)⟩

/-- Counterexample for C2: with a dangling `on_text_next` the resolver does
yield a next state that is absent from the flow — it returns the dangling
name `GHOST` with `handled = true` instead of falling back to the default
state. -/
theorem resolver_dangling_counterexample :
    processMessage cfgDangling "A".data (textMsg "hola".data)
      = ("GHOST".data, true) ∧
    lookupAssoc cfgDangling.states "GHOST".data = none := by
  constructor
  · decide
  · decide

/-- C2 (amended): the resolver forwards a dangling transition target as-is
with `handled = true`; the fallback happens downstream — rendering the
absent state fails closed with an error naming it (no message is built), and
the next event from that absent state resolves to the default state with
`handled = false`. -/
theorem dangling_transition_behavior (base tenant : Str) (cfg : FlowConfig)
    (state next : Str) (msg : IncomingMessage) (vars : List (Str × Str))
    ( _hres : processMessage cfg state msg = (next, true))
    (hdangling : lookupAssoc cfg.states next = none) :
    (∃ e, RenderAndSend base tenant cfg next vars = .error e) ∧
    (∀ msg2, processMessage cfg next msg2 = ("MENU".data, false)) := by
  constructor
  · exact ⟨"estado no existe: ".data ++ next, by simp [RenderAndSend, hdangling]⟩
  · intro msg2
    simp [processMessage, hdangling]

/-- Witness for C2 (amended): the `GHOST` target of `cfgDangling` renders to
an error and the next text event recovers to `MENU`. -/
theorem dangling_transition_behavior_witness :
    (∃ e, RenderAndSend "https://x.io".data "broker".data cfgDangling
      "GHOST".data [] = .error e) ∧
    (∀ msg2, processMessage cfgDangling "GHOST".data msg2
      = ("MENU".data, false)) :=
  dangling_transition_behavior "https://x.io".data "broker".data cfgDangling
    "A".data "GHOST".data (textMsg "hola".data) [] (by decide) (by decide)

lemma mem_validate_of_mem_state {cfg : FlowConfig} {name : Str} {st : FlowState}
    {e : VErr} (hmem : (name, st) ∈ cfg.states) (he : e ∈ stateErrors name st) :
    e ∈ validateFlowConfig cfg := by
  unfold validateFlowConfig
  rw [List.mem_flatten]
  exact ⟨stateErrors name st, List.mem_map.mpr ⟨(name, st), hmem, rfl⟩, he⟩

lemma mem_state_of_mem_type {name : Str} {st : FlowState} {e : VErr}
    (he : e ∈ typeErrors name st) : e ∈ stateErrors name st := by
  unfold stateErrors
  exact List.mem_append_right _ he

lemma loadFlowConfig_rejects {cfg : FlowConfig}
    (h : validateFlowConfig cfg ≠ []) :
    (loadFlowConfig (.ok cfg)).isOk = false := by
  show (if cfg.states = [] then (Except.error LoadError.noStates : Except LoadError FlowConfig)
    else match validateFlowConfig cfg with
      | [] => Except.ok cfg
      | errs => Except.error (LoadError.invalidFlow errs)).isOk = false
  by_cases hs : cfg.states = []
  · rw [if_pos hs]
    rfl
  · rw [if_neg hs]
    cases hv : validateFlowConfig cfg with
    | nil => exact absurd hv h
    | cons e es => rfl

/-- C5: every per-field limit violation of a list state produces a defect
naming the state and the offending field, and any such violation makes the
whole flow load fail closed.  The limits count Unicode code points
(`runeLen` is the length of the character list), not UTF-8 bytes. -/
theorem list_limits_validated (cfg : FlowConfig) (name : Str) (st : FlowState)
    (l : FlowList) (hmem : (name, st) ∈ cfg.states)
    (htype : st.type = "interactive_list".data) (hlist : st.list = some l) :
    (runeLen l.header > 60 →
      ⟨name, "header > 60".data, l.header⟩ ∈ validateFlowConfig cfg) ∧
    (runeLen l.footer > 60 →
      ⟨name, "footer > 60".data, l.footer⟩ ∈ validateFlowConfig cfg) ∧
    (runeLen l.buttonText > 20 →
      ⟨name, "button_text > 20".data, l.buttonText⟩ ∈ validateFlowConfig cfg) ∧
    (∀ sec ∈ l.sections, runeLen sec.title > 24 →
      ⟨name, "section title > 24".data, sec.title⟩ ∈ validateFlowConfig cfg) ∧
    (∀ sec ∈ l.sections, ∀ row ∈ sec.rows, trimSpace row.id = [] →
      ⟨name, "row id vacío".data, row.title⟩ ∈ validateFlowConfig cfg) ∧
    (∀ sec ∈ l.sections, ∀ row ∈ sec.rows, runeLen row.title > 24 →
      ⟨name, "row title > 24".data, row.title⟩ ∈ validateFlowConfig cfg) ∧
    (∀ sec ∈ l.sections, ∀ row ∈ sec.rows, runeLen row.description > 72 →
      ⟨name, "row desc > 72".data, row.description⟩ ∈ validateFlowConfig cfg) ∧
    (validateFlowConfig cfg ≠ [] → (loadFlowConfig (.ok cfg)).isOk = false) := by
  have hmemT : ∀ e : VErr, e ∈ typeErrors name st → e ∈ validateFlowConfig cfg :=
    fun e he => mem_validate_of_mem_state hmem (mem_state_of_mem_type he)
  refine ⟨?_, ?_, ?_, ?_, ?_, ?_, ?_, loadFlowConfig_rejects⟩
  · intro hv
    apply hmemT
    simp [typeErrors, htype, hlist, hv]
  · intro hv
    apply hmemT
    simp [typeErrors, htype, hlist, hv]
  · intro hv
    apply hmemT
    simp [typeErrors, htype, hlist, hv]
  · intro sec hsec hv
    apply hmemT
    simp only [typeErrors, htype, if_true, hlist]
    refine List.mem_append_right _ (List.mem_flatten.mpr
      ⟨_, List.mem_map.mpr ⟨sec, hsec, rfl⟩, ?_⟩)
    simp [hv]
  · intro sec hsec row hrow hv
    apply hmemT
    simp only [typeErrors, htype, if_true, hlist]
    refine List.mem_append_right _ (List.mem_flatten.mpr
      ⟨_, List.mem_map.mpr ⟨sec, hsec, rfl⟩, ?_⟩)
    refine List.mem_append_right _ (List.mem_flatten.mpr
      ⟨_, List.mem_map.mpr ⟨row, hrow, rfl⟩, ?_⟩)
    simp [hv]
  · intro sec hsec row hrow hv
    apply hmemT
    simp only [typeErrors, htype, if_true, hlist]
    refine List.mem_append_right _ (List.mem_flatten.mpr
      ⟨_, List.mem_map.mpr ⟨sec, hsec, rfl⟩, ?_⟩)
    refine List.mem_append_right _ (List.mem_flatten.mpr
      ⟨_, List.mem_map.mpr ⟨row, hrow, rfl⟩, ?_⟩)
    simp [hv]
  · intro sec hsec row hrow hv
    apply hmemT
    simp only [typeErrors, htype, if_true, hlist]
    refine List.mem_append_right _ (List.mem_flatten.mpr
      ⟨_, List.mem_map.mpr ⟨sec, hsec, rfl⟩, ?_⟩)
    refine List.mem_append_right _ (List.mem_flatten.mpr
      ⟨_, List.mem_map.mpr ⟨row, hrow, rfl⟩, ?_⟩)
    simp [hv]

/-- Witness for C5: the over-long row title of `cfgBadList` yields a defect
naming the state and the field and the load fails closed, while
`cfgMultibyte` — whose header is over 60 UTF-8 bytes but only 40 code
points — validates cleanly: the limits count code points, not bytes. -/
theorem list_limits_validated_witness :
    (⟨"MENU".data, "row title > 24".data, rowBad.title⟩
      ∈ validateFlowConfig cfgBadList) ∧
    (loadFlowConfig (.ok cfgBadList)).isOk = false ∧
    validateFlowConfig cfgMultibyte = [] ∧
    runeLen mbHeader ≤ 60 ∧ utf8ByteLen mbHeader > 60 :=
  ⟨((list_limits_validated cfgBadList "MENU".data stBadList lBadList
      (by decide) rfl rfl).2.2.2.2.2.1) secBad (by decide) rowBad (by decide)
      (by decide),
   ((list_limits_validated cfgBadList "MENU".data stBadList lBadList
      (by decide) rfl rfl).2.2.2.2.2.2.2) (by decide),
   by decide, by decide, by decide⟩

lemma if_single_eq_nil {c : Prop} [Decidable c] {x : VErr} :
    ((if c then [x] else ([] : List VErr)) = []) ↔ ¬ c := by
  split
  · rename_i h
    simp [h]
  · rename_i h
    simp [h]

/-- C6: for a buttons state, the kind-specific validation block is empty
exactly when there are 1 to 3 buttons, every button id is non-empty after
trimming, every button title is at most 20 code points, and header and
footer are at most 60 code points each; any violation anywhere in the flow
makes the load fail closed. -/
theorem buttons_rules_validated (cfg : FlowConfig) (name : Str) (st : FlowState)
    (b : FlowButtons) (hmem : (name, st) ∈ cfg.states)
    (htype : st.type = "interactive_buttons".data) (hbtns : st.buttons = some b) :
    (typeErrors name st = [] ↔
      (1 ≤ b.buttons.length ∧ b.buttons.length ≤ 3 ∧
       (∀ btn ∈ b.buttons, trimSpace btn.id ≠ [] ∧ runeLen btn.title ≤ 20) ∧
       runeLen b.header ≤ 60 ∧ runeLen b.footer ≤ 60)) ∧
    (typeErrors name st ≠ [] → (loadFlowConfig (.ok cfg)).isOk = false) := by
  have hlt : ¬ (st.type = "interactive_list".data) := by
    rw [htype]
    decide
  have hT : typeErrors name st =
      (if runeLen b.header > 60 then
        [⟨name, "buttons.header > 60".data, b.header⟩] else []) ++
      (if runeLen b.footer > 60 then
        [⟨name, "buttons.footer > 60".data, b.footer⟩] else []) ++
      (if b.buttons.length = 0 then
        [⟨name, "no tiene buttons (debe tener 1 a 3)".data, []⟩]
       else
        (if b.buttons.length > 3 then
          [⟨name, "tiene botones (>3)".data, []⟩] else []) ++
        (b.buttons.map (fun btn =>
          (if trimSpace btn.id = [] then
            [⟨name, "button id vacío".data, btn.title⟩] else []) ++
          (if runeLen btn.title > 20 then
            [⟨name, "button title > 20".data, btn.title⟩] else []))).flatten) := by
    unfold typeErrors
    rw [if_neg hlt, if_pos htype, hbtns]
  constructor
  · rw [hT]
    by_cases hzero : b.buttons.length = 0
    · have hz2 : b.buttons = [] := List.length_eq_zero.mp hzero
      simp [hzero, hz2]
    · simp only [hzero, if_false, List.append_eq_nil, if_single_eq_nil,
        List.flatten_eq_nil_iff, List.forall_mem_map, Nat.not_lt, and_assoc]
      constructor
      · rintro ⟨hh, hf, h3, hbtn⟩
        exact ⟨Nat.one_le_iff_ne_zero.mpr hzero, h3, hbtn, hh, hf⟩
      · rintro ⟨h1, h3, hbtn, hh, hf⟩
        exact ⟨hh, hf, h3, hbtn⟩
  · intro hne
    obtain ⟨e, he⟩ := List.exists_mem_of_ne_nil _ hne
    exact loadFlowConfig_rejects (List.ne_nil_of_mem
      (mem_validate_of_mem_state hmem (mem_state_of_mem_type he)))

/-- Witness for C6: the two-button state of `cfgButtonsOK` passes the
button rules, and the four-button state of `cfgBadButtons` makes its load
fail closed. -/
theorem buttons_rules_validated_witness :
    typeErrors "BTN".data stButtonsOK = [] ∧
    (loadFlowConfig (.ok cfgBadButtons)).isOk = false :=
  ⟨(buttons_rules_validated cfgButtonsOK "BTN".data stButtonsOK bOK
      (by decide) rfl rfl).1.mpr (by decide),
   (buttons_rules_validated cfgBadButtons "BTN".data stBadButtons bBad
      (by decide) rfl rfl).2 (by decide)⟩

/-- Counterexample for C7: on the body `"{{a}}"` with the variable map
`{a ↦ "{{b}}", b ↦ "x"}` enumerated as `varsP1`, the code substitutes
sequentially and produces `"x"`, while the claim requires the placeholder to
become the map's value `"{{b}}"` (the enumeration order is unspecified in
Go, so the round-trip property must hold for every order, and this order
breaks it). -/
theorem renderVars_roundTrip_counterexample :
    flattenTok [Tok.hole "a".data] = "{{a}}".data ∧
    lookupAssoc varsP1 "a".data = some "{{b}}".data ∧
    renderVars "{{a}}".data varsP1 = "x".data ∧
    "x".data ≠ "{{b}}".data := by
  refine ⟨by decide, by decide, by decide, by decide⟩

/-- C7 (amended): on well-formed inputs — a body alternating brace-free
literal text with `{{key}}` placeholders, and brace-free keys and values —
substitution replaces each placeholder whose key is present in the map by
the map's value, leaves each placeholder with an absent key verbatim, and is
total (never an error), in every enumeration order of the map. -/
theorem renderVars_roundTrip (vars : List (Str × Str)) (ts : List Tok)
    (hts : ToksWF ts) (hvars : VarsWF vars) :
    renderVars (flattenTok ts) vars = flattenTok (parSubst vars ts) :=
  renderVars_flatten vars ts hts hvars

/-- Witness for C7: `"Hola {{name}}, {{missing}}"` with `name = "Ana"`
renders to `"Hola Ana, {{missing}}"`: the known placeholder is substituted
and the unknown one is left verbatim. -/
theorem renderVars_roundTrip_witness :
    renderVars (flattenTok tsDemo) varsDemo = flattenTok (parSubst varsDemo tsDemo) ∧
    renderVars (flattenTok tsDemo) varsDemo = "Hola Ana, {{missing}}".data :=
  ⟨renderVars_roundTrip varsDemo tsDemo (by decide) (by decide), by decide⟩

/-- Counterexample for C3: two renders of the same `(flow, state, variable
map)` triple are not byte-identical — `varsP1` and `varsP2` enumerate the
same map (they are permutations with distinct keys), yet rendering the text
state `S` of `cfgSubst` produces different bodies, because Go's map
iteration order is unspecified and the sequential `ReplaceAll` passes
interfere through the value `"{{b}}"`. -/
theorem render_deterministic_counterexample :
    varsP1.Perm varsP2 ∧
    (varsP1.map Prod.fst).Nodup ∧
    RenderAndSend "https://x.io".data "broker".data cfgSubst "S".data varsP1
      ≠ RenderAndSend "https://x.io".data "broker".data cfgSubst "S".data varsP2 := by
  refine ⟨by decide, by decide, by decide⟩

lemma RenderAndSend_some (base tenant : Str) (cfg : FlowConfig) (name : Str)
    (st : FlowState) (vars : List (Str × Str))
    (hlk : lookupAssoc cfg.states name = some st) :
    RenderAndSend base tenant cfg name vars =
      (if st.type = "text".data then
        .ok (.text (renderVars st.body vars))
      else if st.type = "interactive_list".data then
        match st.list with
        | none =>
          .error ("estado ".data ++ name ++ " es interactive_list pero list es nil".data)
        | some l =>
          match resolveHeaderImage base tenant st.headerMedia vars with
          | .error e => .error e
          | .ok himg =>
            .ok (.list
              { headerText := renderVars l.header vars,
                headerImageURL := himg,
                body := renderVars (effectiveBody st) vars,
                footer := renderVars l.footer vars,
                buttonText := renderVars l.buttonText vars,
                sections := l.sections.map (fun s =>
                  { title := renderVars s.title vars,
                    rows := s.rows.map (fun row =>
                      { id := row.id,
                        title := renderVars row.title vars,
                        description := renderVars row.description vars }) }) })
      else if st.type = "interactive_buttons".data then
        match st.buttons with
        | none =>
          .error ("estado ".data ++ name ++ " es interactive_buttons pero buttons es nil".data)
        | some b =>
          match resolveHeaderImage base tenant st.headerMedia vars with
          | .error e => .error e
          | .ok himg =>
            .ok (.buttons
              { headerText := renderVars b.header vars,
                headerImageURL := himg,
                body := renderVars (effectiveBody st) vars,
                footer := renderVars b.footer vars,
                buttons := b.buttons.map (fun btn =>
                  { id := btn.id, title := renderVars btn.title vars }) })
      else
        .error ("tipo de estado no soportado: ".data ++ st.type)) := by
  unfold RenderAndSend
  rw [hlk]

lemma RenderAndSend_text (base tenant : Str) (cfg : FlowConfig) (name : Str)
    (st : FlowState) (vars : List (Str × Str))
    (hlk : lookupAssoc cfg.states name = some st)
    (htype : st.type = "text".data) :
    RenderAndSend base tenant cfg name vars
      = .ok (.text (renderVars st.body vars)) := by
  rw [RenderAndSend_some base tenant cfg name st vars hlk, if_pos htype]

lemma RenderAndSend_list_eq (base tenant : Str) (cfg : FlowConfig) (name : Str)
    (st : FlowState) (l : FlowList) (vars : List (Str × Str))
    (hlk : lookupAssoc cfg.states name = some st)
    (htype : st.type = "interactive_list".data) (hl : st.list = some l) :
    RenderAndSend base tenant cfg name vars
      = (match resolveHeaderImage base tenant st.headerMedia vars with
        | .error e => .error e
        | .ok himg =>
          .ok (.list
            { headerText := renderVars l.header vars,
              headerImageURL := himg,
              body := renderVars (effectiveBody st) vars,
              footer := renderVars l.footer vars,
              buttonText := renderVars l.buttonText vars,
              sections := l.sections.map (fun s =>
                { title := renderVars s.title vars,
                  rows := s.rows.map (fun row =>
                    { id := row.id,
                      title := renderVars row.title vars,
                      description := renderVars row.description vars }) }) })) := by
  have h1 : ¬ (st.type = "text".data) := by rw [htype]; decide
  rw [RenderAndSend_some base tenant cfg name st vars hlk, if_neg h1,
    if_pos htype, hl]

lemma RenderAndSend_buttons_eq (base tenant : Str) (cfg : FlowConfig) (name : Str)
    (st : FlowState) (b : FlowButtons) (vars : List (Str × Str))
    (hlk : lookupAssoc cfg.states name = some st)
    (htype : st.type = "interactive_buttons".data) (hb : st.buttons = some b) :
    RenderAndSend base tenant cfg name vars
      = (match resolveHeaderImage base tenant st.headerMedia vars with
        | .error e => .error e
        | .ok himg =>
          .ok (.buttons
            { headerText := renderVars b.header vars,
              headerImageURL := himg,
              body := renderVars (effectiveBody st) vars,
              footer := renderVars b.footer vars,
              buttons := b.buttons.map (fun btn =>
                { id := btn.id, title := renderVars btn.title vars }) })) := by
  have h1 : ¬ (st.type = "text".data) := by rw [htype]; decide
  have h2 : ¬ (st.type = "interactive_list".data) := by rw [htype]; decide
  rw [RenderAndSend_some base tenant cfg name st vars hlk, if_neg h1,
    if_neg h2, if_pos htype, hb]

/-- C3 (amended): rendering is deterministic across enumeration orders of
the variable map on well-formed inputs — for a map with distinct, brace-free
keys and brace-free values, and a state whose template strings are
well-formed templates, any two enumeration orders of the map produce
byte-identical outgoing messages (body, header, footer, button labels and
section/row fields included). -/
theorem RenderAndSend_deterministic (base tenant : Str) (cfg : FlowConfig)
    (name : Str) (vars1 vars2 : List (Str × Str))
    (hp : vars1.Perm vars2) (hn : (vars1.map Prod.fst).Nodup) (hw : VarsWF vars1)
    (hT : ∀ st, lookupAssoc cfg.states name = some st → StateWF st) :
    RenderAndSend base tenant cfg name vars1
      = RenderAndSend base tenant cfg name vars2 := by
  have hRV : ∀ s : Str, WFStr s → renderVars s vars1 = renderVars s vars2 :=
    fun s hs => renderVars_perm hp hn hw hs
  cases hlk : lookupAssoc cfg.states name with
  | none =>
    unfold RenderAndSend
    rw [hlk]
  | some st =>
    obtain ⟨hbody, heff, hmedia, hlist, hbtns⟩ := hT st hlk
    have hHdr : resolveHeaderImage base tenant st.headerMedia vars1
        = resolveHeaderImage base tenant st.headerMedia vars2 := by
      cases hm : st.headerMedia with
      | none => rfl
      | some m =>
        show (if equalFold m.type "image".data = true then
            if trimSpace m.url ≠ [] then Except.ok (trimSpace m.url)
            else if trimSpace m.path ≠ [] then
              buildPublicAssetURL base tenant (renderVars m.path vars1)
            else Except.ok []
          else Except.ok [])
          = (if equalFold m.type "image".data = true then
            if trimSpace m.url ≠ [] then Except.ok (trimSpace m.url)
            else if trimSpace m.path ≠ [] then
              buildPublicAssetURL base tenant (renderVars m.path vars2)
            else Except.ok []
          else Except.ok [])
        rw [hRV m.path (hmedia m hm)]
    by_cases h1 : st.type = "text".data
    · rw [RenderAndSend_text base tenant cfg name st vars1 hlk h1,
        RenderAndSend_text base tenant cfg name st vars2 hlk h1,
        hRV st.body hbody]
    · by_cases h2 : st.type = "interactive_list".data
      · cases hl : st.list with
        | none =>
          rw [RenderAndSend_some base tenant cfg name st vars1 hlk,
            RenderAndSend_some base tenant cfg name st vars2 hlk,
            if_neg h1, if_neg h1, if_pos h2, if_pos h2, hl]
        | some l =>
          obtain ⟨hh, hf, hb, hsec⟩ := hlist l hl
          have hsecs : l.sections.map (fun s =>
              { title := renderVars s.title vars1,
                rows := s.rows.map (fun row =>
                  { id := row.id,
                    title := renderVars row.title vars1,
                    description := renderVars row.description vars1 }) : FlowSection })
            = l.sections.map (fun s =>
              { title := renderVars s.title vars2,
                rows := s.rows.map (fun row =>
                  { id := row.id,
                    title := renderVars row.title vars2,
                    description := renderVars row.description vars2 }) : FlowSection }) := by
            apply List.map_congr_left
            intro sec hs
            obtain ⟨hst, hrows⟩ := hsec sec hs
            have hrows2 : sec.rows.map (fun row =>
                { id := row.id,
                  title := renderVars row.title vars1,
                  description := renderVars row.description vars1 : FlowRow })
              = sec.rows.map (fun row =>
                { id := row.id,
                  title := renderVars row.title vars2,
                  description := renderVars row.description vars2 : FlowRow }) := by
              apply List.map_congr_left
              intro r hr
              obtain ⟨hrt, hrd⟩ := hrows r hr
              rw [hRV r.title hrt, hRV r.description hrd]
            rw [hRV sec.title hst, hrows2]
          rw [RenderAndSend_list_eq base tenant cfg name st l vars1 hlk h2 hl,
            RenderAndSend_list_eq base tenant cfg name st l vars2 hlk h2 hl,
            hHdr]
          cases hri : resolveHeaderImage base tenant st.headerMedia vars2 with
          | error e => rfl
          | ok himg =>
            rw [hRV (effectiveBody st) heff, hRV l.header hh, hRV l.footer hf,
              hRV l.buttonText hb, hsecs]
      · by_cases h3 : st.type = "interactive_buttons".data
        · cases hbt : st.buttons with
          | none =>
            rw [RenderAndSend_some base tenant cfg name st vars1 hlk,
              RenderAndSend_some base tenant cfg name st vars2 hlk,
              if_neg h1, if_neg h1, if_neg h2, if_neg h2, if_pos h3, if_pos h3,
              hbt]
          | some b =>
            obtain ⟨hh, hf, hbtn⟩ := hbtns b hbt
            have hbtns2 : b.buttons.map (fun btn =>
                { id := btn.id, title := renderVars btn.title vars1 : FlowButton })
              = b.buttons.map (fun btn =>
                { id := btn.id, title := renderVars btn.title vars2 : FlowButton }) := by
              apply List.map_congr_left
              intro btn hm
              rw [hRV btn.title (hbtn btn hm)]
            rw [RenderAndSend_buttons_eq base tenant cfg name st b vars1 hlk h3 hbt,
              RenderAndSend_buttons_eq base tenant cfg name st b vars2 hlk h3 hbt,
              hHdr]
            cases hri : resolveHeaderImage base tenant st.headerMedia vars2 with
            | error e => rfl
            | ok himg =>
              rw [hRV (effectiveBody st) heff, hRV b.header hh, hRV b.footer hf,
                hbtns2]
        · rw [RenderAndSend_some base tenant cfg name st vars1 hlk,
            RenderAndSend_some base tenant cfg name st vars2 hlk,
            if_neg h1, if_neg h1, if_neg h2, if_neg h2, if_neg h3, if_neg h3]

lemma stSubst_WF : StateWF stSubst := by
  refine ⟨⟨[Tok.hole "a".data], by decide, by decide⟩,
    ⟨[Tok.hole "a".data], by decide, by decide⟩,
    fun m hm => Option.noConfusion hm,
    fun l hl => Option.noConfusion hl,
    fun b hb => Option.noConfusion hb⟩

/-- Witness for C3 (amended): the two enumeration orders of the brace-free
map `{a ↦ "1", b ↦ "2"}` render the state `S` of `cfgSubst` identically. -/
theorem RenderAndSend_deterministic_witness :
    RenderAndSend "https://x.io".data "broker".data cfgSubst "S".data
        [("a".data, "1".data), ("b".data, "2".data)]
      = RenderAndSend "https://x.io".data "broker".data cfgSubst "S".data
        [("b".data, "2".data), ("a".data, "1".data)] :=
  RenderAndSend_deterministic "https://x.io".data "broker".data cfgSubst
    "S".data [("a".data, "1".data), ("b".data, "2".data)]
    [("b".data, "2".data), ("a".data, "1".data)]
    (by decide) (by decide) (by decide)
    (fun st h => by
      have h3 : st = stSubst := (Option.some.inj h).symm
      rw [h3]
      exact stSubst_WF)

lemma runAction_error (tenant sender : Str) (cfg : FlowConfig)
    (registry : Str → Option ActionFn) (nextState : Str)
    (vars0 : List (Str × Str)) (sess1 : UserSession) (st : FlowState)
    (f : ActionFn) (e : Str)
    (hst : lookupAssoc cfg.states nextState = some st)
    (ha : st.action ≠ [])
    (hf : registry st.action = some f)
    (he : f tenant sender sess1 = .error e) :
    runAction tenant sender cfg registry nextState vars0 sess1
      = (vars0, sess1, some (st.action, sess1)) := by
  simp only [runAction, hst, ne_eq, ha, not_false_eq_true, if_true, hf, he]

lemma runAction_called_sess (tenant sender : Str) (cfg : FlowConfig)
    (registry : Str → Option ActionFn) (nextState : Str)
    (vars0 : List (Str × Str)) (sess1 : UserSession) :
    ∀ a s, (runAction tenant sender cfg registry nextState vars0 sess1).2.2
      = some (a, s) → s = sess1 := by
  intro a s h
  cases hlk : lookupAssoc cfg.states nextState with
  | none =>
    simp only [runAction, hlk] at h
    exact Option.noConfusion h
  | some st =>
    by_cases ha : st.action ≠ []
    · cases hr : registry st.action with
      | none =>
        simp only [runAction, hlk, ne_eq, ha, not_false_eq_true, if_true, hr] at h
        exact Option.noConfusion h
      | some f =>
        cases hfr : f tenant sender sess1 with
        | error e =>
          simp only [runAction, hlk, ne_eq, ha, not_false_eq_true, if_true,
            hr, hfr] at h
          exact (congrArg Prod.snd (Option.some.inj h)).symm
        | ok newVars =>
          simp only [runAction, hlk, ne_eq, ha, not_false_eq_true, if_true,
            hr, hfr] at h
          exact (congrArg Prod.snd (Option.some.inj h)).symm
    · rw [not_not] at ha
      simp only [runAction, hlk, ha, ne_eq, not_true_eq_false, if_false] at h
      exact Option.noConfusion h

lemma lookupAssoc_insertVar (m : List (Str × Str)) (k v : Str) :
    lookupAssoc (insertVar m k v) k = some v := by
  induction m with
  | nil => simp [insertVar, lookupAssoc]
  | cons kv rest ih =>
    obtain ⟨k1, v1⟩ := kv
    unfold insertVar
    by_cases hk : k1 = k
    · rw [if_pos hk]
      simp [lookupAssoc]
    · rw [if_neg hk]
      show (if k1 = k then some v1 else lookupAssoc (insertVar rest k v) k) = some v
      rw [if_neg hk]
      exact ih

/-- C4: when the target state's action handler returns an error, the
dispatcher still applies the transition — the persisted session carries the
next state (and the data captured before the action, unchanged) — and still
renders the next state, but with the base variables only (no new variables
are merged), so the conversation proceeds past the failed side effect. -/
theorem action_failure_nonblocking (base tenant : Str) (cfg : FlowConfig)
    (registry : Str → Option ActionFn) (sessIn : Option UserSession)
    (contactName : Option Str) (msg : IncomingMessage) (now : Nat)
    (st : FlowState) (f : ActionFn) (e : Str)
    (hst : lookupAssoc cfg.states
      (resolvedNext cfg (sessionAfterCapture (sessionBase sessIn now) msg) msg)
      = some st)
    (ha : st.action ≠ [])
    (hf : registry st.action = some f)
    (he : f tenant msg.sender (sessionAfterCapture (sessionBase sessIn now) msg)
      = .error e) :
    handleMessage base tenant cfg registry sessIn contactName msg now =
      { session :=
          { state := resolvedNext cfg
              (sessionAfterCapture (sessionBase sessIn now) msg) msg,
            updatedAt := now,
            data := (sessionAfterCapture (sessionBase sessIn now) msg).data },
        rendered := RenderAndSend base tenant cfg
          (resolvedNext cfg (sessionAfterCapture (sessionBase sessIn now) msg) msg)
          (varsBase contactName (sessionBase sessIn now)),
        actionCalled := some (st.action,
          sessionAfterCapture (sessionBase sessIn now) msg) } := by
  simp only [handleMessage]
  rw [runAction_error tenant msg.sender cfg registry
    (resolvedNext cfg (sessionAfterCapture (sessionBase sessIn now) msg) msg)
    (varsBase contactName (sessionBase sessIn now))
    (sessionAfterCapture (sessionBase sessIn now) msg) st f e hst ha hf he]

/-- Witness for C4: selecting row `A` from `MENU` moves to `PRICING`, whose
`fetch_price` action fails; the session is still persisted in state
`PRICING` and the rendered text keeps the unresolved `{{price}}`
placeholder verbatim. -/
theorem action_failure_nonblocking_witness :
    handleMessage "https://x.io".data "broker".data cfgDemo registryFail
        (some { state := "MENU".data, updatedAt := 5, data := [] }) none
        (listReplyMsg "A".data) 7 =
      { session :=
          { state := resolvedNext cfgDemo
              (sessionAfterCapture (sessionBase
                (some { state := "MENU".data, updatedAt := 5, data := [] }) 7)
                (listReplyMsg "A".data)) (listReplyMsg "A".data),
            updatedAt := 7,
            data := (sessionAfterCapture (sessionBase
              (some { state := "MENU".data, updatedAt := 5, data := [] }) 7)
              (listReplyMsg "A".data)).data },
        rendered := RenderAndSend "https://x.io".data "broker".data cfgDemo
          (resolvedNext cfgDemo
            (sessionAfterCapture (sessionBase
              (some { state := "MENU".data, updatedAt := 5, data := [] }) 7)
              (listReplyMsg "A".data)) (listReplyMsg "A".data))
          (varsBase none (sessionBase
            (some { state := "MENU".data, updatedAt := 5, data := [] }) 7)),
        actionCalled := some (stPRICING.action,
          sessionAfterCapture (sessionBase
            (some { state := "MENU".data, updatedAt := 5, data := [] }) 7)
            (listReplyMsg "A".data)) } ∧
    (handleMessage "https://x.io".data "broker".data cfgDemo registryFail
        (some { state := "MENU".data, updatedAt := 5, data := [] }) none
        (listReplyMsg "A".data) 7).session.state = "PRICING".data ∧
    (handleMessage "https://x.io".data "broker".data cfgDemo registryFail
        (some { state := "MENU".data, updatedAt := 5, data := [] }) none
        (listReplyMsg "A".data) 7).rendered
      = .ok (.text "Our price is {{price}}".data) :=
  ⟨action_failure_nonblocking "https://x.io".data "broker".data cfgDemo
      registryFail (some { state := "MENU".data, updatedAt := 5, data := [] })
      none (listReplyMsg "A".data) 7 stPRICING
      (fun _ _ _ => .error "boom".data) "boom".data rfl (by decide) rfl rfl,
   by decide, by decide⟩

/-- C10: an interactive reply with a non-empty selected option id is written
into the session's data under `last_selected_id` before the transition is
resolved and before any action of the target state runs; consequently any
action handler invoked for that event receives a session in which
`last_selected_id` is the just-selected id. -/
theorem last_selected_id_observed (base tenant : Str) (cfg : FlowConfig)
    (registry : Str → Option ActionFn) (sessIn : Option UserSession)
    (contactName : Option Str) (msg : IncomingMessage) (now : Nat)
    (hsid : selectedIdOf msg ≠ []) :
    lookupAssoc (sessionAfterCapture (sessionBase sessIn now) msg).data
        "last_selected_id".data = some (selectedIdOf msg) ∧
    (∀ a s, (handleMessage base tenant cfg registry sessIn contactName msg
        now).actionCalled = some (a, s) →
      lookupAssoc s.data "last_selected_id".data = some (selectedIdOf msg)) := by
  have hcap : lookupAssoc (sessionAfterCapture (sessionBase sessIn now) msg).data
      "last_selected_id".data = some (selectedIdOf msg) := by
    show lookupAssoc (if selectedIdOf msg ≠ [] then
        { sessionBase sessIn now with
          data := insertVar (sessionBase sessIn now).data "last_selected_id".data
            (selectedIdOf msg) }
      else sessionBase sessIn now).data "last_selected_id".data
      = some (selectedIdOf msg)
    rw [if_pos hsid]
    exact lookupAssoc_insertVar _ _ _
  refine ⟨hcap, ?_⟩
  intro a s h
  have hs : s = sessionAfterCapture (sessionBase sessIn now) msg :=
    runAction_called_sess tenant msg.sender cfg registry
      (resolvedNext cfg (sessionAfterCapture (sessionBase sessIn now) msg) msg)
      (varsBase contactName (sessionBase sessIn now))
      (sessionAfterCapture (sessionBase sessIn now) msg) a s h
  rw [hs]
  exact hcap

/-- Witness for C10: the list-reply selecting row `A` is visible as
`last_selected_id = "A"` in the session captured before resolution, and the
`fetch_price` action invoked in `PRICING` observes exactly that session. -/
theorem last_selected_id_observed_witness :
    lookupAssoc (sessionAfterCapture (sessionBase
        (some { state := "MENU".data, updatedAt := 5, data := [] }) 7)
        (listReplyMsg "A".data)).data "last_selected_id".data
      = some (selectedIdOf (listReplyMsg "A".data)) ∧
    (∀ a s, (handleMessage "https://x.io".data "broker".data cfgDemo
        registryFail (some { state := "MENU".data, updatedAt := 5, data := [] })
        none (listReplyMsg "A".data) 7).actionCalled = some (a, s) →
      lookupAssoc s.data "last_selected_id".data
        = some (selectedIdOf (listReplyMsg "A".data))) :=
  last_selected_id_observed "https://x.io".data "broker".data cfgDemo
    registryFail (some { state := "MENU".data, updatedAt := 5, data := [] })
    none (listReplyMsg "A".data) 7 (by decide)
